import Mathlib

/-!
Shallow embedding of the TBase Gather operator
(src/backend/executor/nodeGather.c, with the `__TBASE__` sections active,
as they are in this repository's build).

Modelling conventions:
* tuples are natural numbers;
* a tuple-queue reader is a pair `(id, script)`: `id` identifies the reader
  across removals, and `script` is the sequence of results its successive
  non-blocking reads produce (`tup t` = a tuple, `empty` = nothing available
  right now); once the script is exhausted the reader reports done forever —
  this mirrors the TupleQueueReader contract;
* the leader-side state `GatherState` carries the fields of the C struct the
  claims are about, plus the environment the C code consults (GUCs, the
  parallel-mode flags, what the launch would report) and a few
  instrumentation counters (`reinit_count`, `finish_count`, `local_calls`)
  that count calls to external collaborators without influencing behaviour;
* loops are written fuel-indexed (structural recursion), with wrappers that
  supply fuel computed from an explicit termination measure, so everything
  evaluates by `decide`/`rfl`.
-/

/-- One result of a non-blocking read on a worker tuple queue. -/
inductive QEvent where
  | tup (t : Nat)
  | empty
deriving DecidableEq, Repr

/-- A tuple-queue reader: an identity plus the script of its reads;
an exhausted script means the reader reports done. -/
abbrev Reader := Nat × List QEvent

/-- Outcome of `gather_readnext` (the worker poll loop).
`assertFailed` models a violation of `Assert(nextreader < nreaders)`;
`outOfFuel` is the fuel-exhaustion escape, unreachable for adequate fuel. -/
inductive ReadOutcome where
  | tuple (t : Nat)
  | exhausted
  | yieldLocal
  | assertFailed
  | outOfFuel
deriving DecidableEq, Repr

/-- Events observed inside the worker poll loop: a read attempt on the reader
with the given id, or a latch wait recording the surviving readers' ids. -/
inductive TraceEv where
  | poll (id : Nat)
  | wait (survivors : List Nat)
deriving DecidableEq, Repr

/-- Total number of scripted read results over all readers (termination measure). -/
def totalEvents : List Reader → Nat
  | [] => 0
  | r :: rs => r.2.length + totalEvents rs

/-- Result of the worker poll loop: outcome, surviving readers, final
round-robin cursor, and the trace of polls and latch waits. -/
structure ReadResult where
  out : ReadOutcome
  readers : List Reader
  next : Nat
  trace : List TraceEv
deriving Repr

/-- Fuel-indexed embedding of `gather_readnext`: attempt a non-blocking read
from `readers[next]`; on done, destroy the reader (erase it, shifting the tail
left), re-bound the cursor, and continue without counting a visit; on a tuple,
return it leaving the cursor in place; on an empty read, advance the cursor
round-robin and count a visit; after a full unproductive lap either yield to
the local scan (when the leader participates) or wait on the latch and reset
the visit counter. -/
def readnextF : Nat → List Reader → Nat → Nat → Bool → ReadResult
  | 0, rs, nr, _, _ => ⟨.outOfFuel, rs, nr, []⟩
  | fuel+1, rs, nr, nv, lok =>
    if h : nr < rs.length then
      match rs.get ⟨nr, h⟩ with
      | (id, []) =>
        let rs' := rs.eraseIdx nr
        if rs'.length = 0 then ⟨.exhausted, rs', 0, [.poll id]⟩
        else
          let nr' := if rs'.length ≤ nr then 0 else nr
          let r := readnextF fuel rs' nr' nv lok
          ⟨r.out, r.readers, r.next, .poll id :: r.trace⟩
      | (id, .tup t :: rest) =>
        ⟨.tuple t, rs.set nr (id, rest), nr, [.poll id]⟩
      | (id, .empty :: rest) =>
        let rs' := rs.set nr (id, rest)
        let nr' := if rs'.length ≤ nr + 1 then 0 else nr + 1
        if rs'.length ≤ nv + 1 then
          if lok then ⟨.yieldLocal, rs', nr', [.poll id]⟩
          else
            let r := readnextF fuel rs' nr' 0 lok
            ⟨r.out, r.readers, r.next, .poll id :: .wait (rs'.map Prod.fst) :: r.trace⟩
        else
          let r := readnextF fuel rs' nr' (nv + 1) lok
          ⟨r.out, r.readers, r.next, .poll id :: r.trace⟩
    else ⟨.assertFailed, rs, nr, []⟩

/-- `gather_readnext`: the poll loop entered with a fresh visit counter,
run with adequate fuel. -/
def gather_readnext (rs : List Reader) (nr : Nat) (lok : Bool) : ReadResult :=
  readnextF (totalEvents rs + rs.length + 1) rs nr 0 lok

/-- The `GatherState` node (plus the plan fields of `Gather`, the global
flags the code consults, and instrumentation counters). -/
structure GatherState where
  -- Gather plan fields
  single_copy : Bool
  num_workers : Nat
  parallel_send : Bool          -- gather->parallelWorker_sendTuple
  proj : Nat → Nat              -- ExecProject via ps_ProjInfo
  qual : Nat → Bool             -- ExecInitQual(node->plan.qual, ...): built, never evaluated
  child0 : List Nat             -- the child plan's rowset (restored by ExecReScan)
  -- environment: process flags, GUCs, and what LaunchParallelWorkers reports
  is_parallel_worker : Bool     -- IsParallelWorker()
  in_parallel_mode : Bool       -- IsInParallelMode()
  enable_statistic : Bool       -- enable_statistic GUC
  env_queues : List Reader      -- scripts of the queues of the launched workers
  -- executor state
  initialized : Bool
  need_to_scan_locally : Bool
  reader : Option (List Reader) -- NULL ↔ none
  nextreader : Nat
  pei : Bool                    -- node->pei != NULL
  nworkers_launched : Nat
  child : List Nat              -- remaining tuples of the local child scan
  get_tuples : Nat
  get_total_time : Int
  -- instrumentation (counts calls to external collaborators)
  reinit_count : Nat            -- ExecParallelReinitialize invocations
  finish_count : Nat            -- ExecParallelFinish invocations
  local_calls : Nat             -- ExecProcNode(outerPlan) invocations

/-- `ExecInitGather`: build the node. `need_to_scan_locally` starts as
`!single_copy`; statistics counters start at `0` and `-1`; no readers, no
parallel context. -/
def ExecInitGather (single_copy : Bool) (num_workers : Nat) (parallel_send : Bool)
    (proj : Nat → Nat) (qual : Nat → Bool) (child0 : List Nat)
    (is_parallel_worker in_parallel_mode enable_statistic : Bool)
    (env_queues : List Reader) : GatherState where
  single_copy := single_copy
  num_workers := num_workers
  parallel_send := parallel_send
  proj := proj
  qual := qual
  child0 := child0
  is_parallel_worker := is_parallel_worker
  in_parallel_mode := in_parallel_mode
  enable_statistic := enable_statistic
  env_queues := env_queues
  initialized := false
  need_to_scan_locally := !single_copy
  reader := none
  nextreader := 0
  pei := false
  nworkers_launched := 0
  child := child0
  get_tuples := 0
  get_total_time := -1
  reinit_count := 0
  finish_count := 0
  local_calls := 0

/-- `ExecShutdownGatherWorkers`: destroy and drop the readers (if any), then
`ExecParallelFinish` the parallel context (if any). -/
def ExecShutdownGatherWorkers (g : GatherState) : GatherState :=
  let g := if g.reader.isSome then { g with reader := none } else g
  if g.pei then { g with finish_count := g.finish_count + 1 } else g

/-- `ExecShutdownGather`: shut down workers, then destroy the parallel context. -/
def ExecShutdownGather (g : GatherState) : GatherState :=
  let g := ExecShutdownGatherWorkers g
  if g.pei then { g with pei := false } else g

/-- The `!node->initialized` block of `ExecGather` in the non-parallel-worker
case: create or reinitialize the parallel context, launch workers, build one
reader per launched worker (unless `parallel_send`); with no workers, shut the
worker state down; finally (TBase behaviour) set
`need_to_scan_locally = (reader == NULL)` (or `false` under `parallel_send`)
and mark the node initialized. -/
def execGatherInitStep (g : GatherState) : GatherState :=
  let g :=
    if 0 < g.num_workers ∧ g.in_parallel_mode then
      let g := if g.pei then { g with reinit_count := g.reinit_count + 1 }
               else { g with pei := true }
      let launched := g.env_queues.length
      let g := { g with nworkers_launched := launched }
      if 0 < launched then
        if g.parallel_send then { g with reader := none, nextreader := 0 }
        else { g with reader := some g.env_queues, nextreader := 0 }
      else ExecShutdownGatherWorkers g
    else g
  let g :=
    if g.parallel_send then { g with need_to_scan_locally := false }
    else { g with need_to_scan_locally := g.reader.isNone }
  { g with initialized := true }

/-- The local-scan attempt inside `gather_getnext`'s loop: when
`need_to_scan_locally`, pull one tuple from the outer plan; on an empty pull
clear `need_to_scan_locally`. Returns the tuple (if one was produced) and the
updated state. -/
def localTry (g : GatherState) : Option Nat × GatherState :=
  if g.need_to_scan_locally then
    match g.child with
    | t :: rest => (some t, { g with child := rest, local_calls := g.local_calls + 1 })
    | [] => (none, { g with need_to_scan_locally := false, local_calls := g.local_calls + 1 })
  else (none, g)

/-- Fuel-indexed embedding of `gather_getnext`: while a reader array or the
local scan remains, try the worker queues first (when present), then the
local scan; return the first tuple obtained, or `none` (the cleared funnel
slot, i.e. the empty sentinel) once both sources are gone. -/
def gather_getnextF : Nat → GatherState → Option Nat × GatherState
  | 0, g => (none, g)
  | fuel+1, g =>
    match g.reader with
    | some rs =>
      let r := gather_readnext rs g.nextreader g.need_to_scan_locally
      match r.out with
      | .tuple t => (some t, { g with reader := some r.readers, nextreader := r.next })
      | .exhausted =>
        let g1 := ExecShutdownGatherWorkers { g with reader := some r.readers }
        let l := localTry g1
        match l.1 with
        | some _ => l
        | none => gather_getnextF fuel l.2
      | .yieldLocal =>
        let g1 := { g with reader := some r.readers, nextreader := r.next }
        let l := localTry g1
        match l.1 with
        | some _ => l
        | none => gather_getnextF fuel l.2
      | .assertFailed => (none, g)
      | .outOfFuel => (none, g)
    | none =>
      if g.need_to_scan_locally then
        let l := localTry g
        match l.1 with
        | some _ => l
        | none => gather_getnextF fuel l.2
      else (none, g)

/-- Termination measure for `gather_getnext`'s loop. -/
def gmeasure (g : GatherState) : Nat :=
  (match g.reader with
   | some rs => totalEvents rs + rs.length + 1
   | none => 0) + g.child.length + (if g.need_to_scan_locally then 1 else 0)

/-- `gather_getnext` run with adequate fuel. -/
def gather_getnext (g : GatherState) : Option Nat × GatherState :=
  gather_getnextF (gmeasure g + 1) g

/-- One call of `ExecGather` (`next()`).  `b` and `e` are the timestamps
`GetCurrentTimestamp()` would return before and after `gather_getnext` (the
statistics instrumentation reads them).  First call: in a parallel worker,
suppress nested gathers (no readers, scan locally); otherwise run the
first-call initialization.  A first call with `parallel_send` waits for the
workers and returns the empty sentinel.  Otherwise produce one tuple via
`gather_getnext`, update the statistics, and return it projected. -/
def ExecGather (g : GatherState) (b e : Int) : Option Nat × GatherState :=
  let ps : Bool :=
    if g.is_parallel_worker then false
    else if g.initialized then false else g.parallel_send
  let g :=
    if g.is_parallel_worker then
      if g.initialized then g
      else { g with reader := none, need_to_scan_locally := true, initialized := true }
    else
      if g.initialized then g else execGatherInitStep g
  if ps then (none, g)
  else
    let tbegin : Int := if g.enable_statistic ∧ ¬g.need_to_scan_locally then b else 0
    let r := gather_getnext g
    match r.1 with
    | none => (none, r.2)
    | some t =>
      let g' := r.2
      let g' :=
        if g'.enable_statistic ∧ ¬g'.need_to_scan_locally then
          if g'.get_total_time = -1 then
            { g' with get_tuples := g'.get_tuples + 1, get_total_time := 0 }
          else
            { g' with get_tuples := g'.get_tuples + 1,
                      get_total_time := g'.get_total_time + (e - tbegin) }
        else g'
      (some (g.proj t), g')

/-- `ExecReScanGather`: gracefully shut down the workers, clear `initialized`,
reinitialize the parallel context if present, and rescan the child plan. -/
def ExecReScanGather (g : GatherState) : GatherState :=
  let g := ExecShutdownGatherWorkers g
  let g := { g with initialized := false }
  let g := if g.pei then { g with reinit_count := g.reinit_count + 1 } else g
  { g with child := g.child0 }

/-- Call `ExecGather` once per element of `ts` (the begin/end timestamp pairs),
collecting every result (tuple or empty sentinel). -/
def iterateCalls (g : GatherState) : List (Int × Int) → List (Option Nat) × GatherState
  | [] => ([], g)
  | (b, e) :: ts =>
    let r := ExecGather g b e
    let rest := iterateCalls r.2 ts
    (r.1 :: rest.1, rest.2)

/-- Fuel-indexed driver: call `ExecGather` repeatedly (consuming one timestamp
pair per call) until it returns the empty sentinel; collect the tuples. -/
def runGatherF : Nat → GatherState → List (Int × Int) → List Nat × GatherState
  | 0, g, _ => ([], g)
  | fuel+1, g, ts =>
    let p := ts.headD (0, 0)
    match ExecGather g p.1 p.2 with
    | (none, g') => ([], g')
    | (some t, g') =>
      let r := runGatherF fuel g' ts.tail
      (t :: r.1, r.2)

/-- Fuel adequate for a complete scan from `g` (covers the first-call
initialization and one call per remaining tuple). -/
def runFuel (g : GatherState) : Nat :=
  totalEvents g.env_queues + g.env_queues.length + g.child0.length + g.child.length +
    (match g.reader with | some rs => totalEvents rs + rs.length | none => 0) + 4

/-- Drive a scan to completion: repeated `next()` until the empty sentinel. -/
def runGather (g : GatherState) (ts : List (Int × Int)) : List Nat × GatherState :=
  runGatherF (runFuel g) g ts

/-- Sum of the per-call read latencies `tup_end - tup_begin` over a list of
begin/end timestamp pairs (what the statistics instrumentation measures). -/
def latencySum (ts : List (Int × Int)) : Int :=
  (ts.map (fun p => p.2 - p.1)).sum

/-- Well-formedness of the executor state: the round-robin cursor is in range
whenever a reader array is present, and an uninitialized node has no readers
(as after `ExecInitGather` and after `ExecReScanGather`). -/
def WFG (g : GatherState) : Bool :=
  (match g.reader with
   | some rs => decide (g.nextreader < rs.length)
   | none => true) &&
  (!g.initialized → g.reader.isNone)

/-- Terminal executor state: both tuple sources gone; `next()` returns the
empty sentinel and leaves the state unchanged. -/
def Terminal (g : GatherState) : Bool :=
  g.initialized && g.reader.isNone && !g.need_to_scan_locally

/-- Survivor coverage of a poll-loop trace: walking the trace while carrying
the multiset `S` of reader ids polled since the last latch wait (or since
entry), every wait event's survivor list is contained in `S`, and each wait
resets `S`. -/
def coveredB (S : List Nat) : List TraceEv → Bool
  | [] => true
  | .poll id :: tr => coveredB (id :: S) tr
  | .wait s :: tr => s.all (fun id => id ∈ S) && coveredB [] tr

/-- Fields of `GatherState` that the tuple-production path (`gather_getnext`)
never modifies: plan configuration, environment, statistics counters, the
parallel-context flag and the reinitialize counter. -/
def framePreserved (g h : GatherState) : Prop :=
  h.initialized = g.initialized ∧ h.pei = g.pei ∧ h.proj = g.proj ∧ h.qual = g.qual ∧
  h.get_tuples = g.get_tuples ∧ h.get_total_time = g.get_total_time ∧
  h.enable_statistic = g.enable_statistic ∧ h.env_queues = g.env_queues ∧
  h.child0 = g.child0 ∧ h.is_parallel_worker = g.is_parallel_worker ∧
  h.in_parallel_mode = g.in_parallel_mode ∧ h.parallel_send = g.parallel_send ∧
  h.num_workers = g.num_workers ∧ h.single_copy = g.single_copy ∧
  h.reinit_count = g.reinit_count

/-- Agreement on the fields that drive the tuple-production control flow. -/
def coreEq (g h : GatherState) : Prop :=
  g.reader = h.reader ∧ g.nextreader = h.nextreader ∧
  g.need_to_scan_locally = h.need_to_scan_locally ∧ g.child = h.child

/-- The ids of the readers of a worker set, in positional order. -/
def idsOf (rs : List Reader) : List Nat := rs.map Prod.fst

/-- Invariant of the poll loop relating the visit counter to the trace:
the `nv` surviving readers cyclically preceding the cursor (the ones whose
empty reads were counted since the last latch wait) have all been polled,
i.e. their ids are in `S`. -/
def ReadInv (rs : List Reader) (nr nv : Nat) (S : List Nat) : Prop :=
  ∀ j, j < nv → j < rs.length →
    (idsOf rs).getD ((nr + rs.length - 1 - j) % rs.length) 0 ∈ S

theorem totalEvents_set (rs : List Reader) (i : Nat) (id : Nat) (e : QEvent)
    (rest : List QEvent) (h : i < rs.length) (hget : rs.get ⟨i, h⟩ = (id, e :: rest)) :
    totalEvents (rs.set i (id, rest)) + 1 = totalEvents rs := by
  induction rs generalizing i with
  | nil => simp at h
  | cons r rs ih =>
    cases i with
    | zero =>
      simp only [List.get] at hget
      subst hget
      simp [List.set, totalEvents]
      omega
    | succ n =>
      simp only [List.set, totalEvents]
      have := ih n (by simpa using h) (by simpa using hget)
      omega

theorem totalEvents_eraseIdx (rs : List Reader) (i : Nat) :
    totalEvents (rs.eraseIdx i) ≤ totalEvents rs := by
  induction rs generalizing i with
  | nil => simp [List.eraseIdx, totalEvents]
  | cons r rs ih =>
    cases i with
    | zero => simp [List.eraseIdx, totalEvents]
    | succ n =>
      simp only [List.eraseIdx, totalEvents]
      have := ih n
      omega

theorem readnextF_spec (fuel : Nat) :
    ∀ (rs : List Reader) (nr nv : Nat) (lok : Bool),
    nr < rs.length → totalEvents rs + rs.length < fuel →
    (readnextF fuel rs nr nv lok).out ≠ .outOfFuel ∧
    (readnextF fuel rs nr nv lok).out ≠ .assertFailed ∧
    totalEvents (readnextF fuel rs nr nv lok).readers +
      (readnextF fuel rs nr nv lok).readers.length ≤ totalEvents rs + rs.length ∧
    ((readnextF fuel rs nr nv lok).out = .exhausted →
      (readnextF fuel rs nr nv lok).readers = []) ∧
    ((readnextF fuel rs nr nv lok).out = .yieldLocal →
      totalEvents (readnextF fuel rs nr nv lok).readers +
        (readnextF fuel rs nr nv lok).readers.length < totalEvents rs + rs.length ∧
      (readnextF fuel rs nr nv lok).next < (readnextF fuel rs nr nv lok).readers.length) ∧
    (∀ t, (readnextF fuel rs nr nv lok).out = .tuple t →
      totalEvents (readnextF fuel rs nr nv lok).readers +
        (readnextF fuel rs nr nv lok).readers.length < totalEvents rs + rs.length ∧
      (readnextF fuel rs nr nv lok).next < (readnextF fuel rs nr nv lok).readers.length) := by
  induction fuel with
  | zero =>
    intro rs nr nv lok _ hf
    omega
  | succ fuel ih =>
    intro rs nr nv lok h hf
    simp only [readnextF, dif_pos h]
    split
    case _ id hget =>
      have hlen : (rs.eraseIdx nr).length = rs.length - 1 := by
        rw [List.length_eraseIdx]
        simp [h]
      have hev : totalEvents (rs.eraseIdx nr) ≤ totalEvents rs := totalEvents_eraseIdx rs nr
      by_cases h0 : (rs.eraseIdx nr).length = 0
      · rw [if_pos h0]
        dsimp only
        refine ⟨by simp, by simp, by omega, fun _ => List.length_eq_zero.mp h0, by simp, by simp⟩
      · have h1 : 0 < (rs.eraseIdx nr).length := Nat.pos_of_ne_zero h0
        have hnr' : (if (rs.eraseIdx nr).length ≤ nr then 0 else nr) < (rs.eraseIdx nr).length := by
          split <;> omega
        have hf' : totalEvents (rs.eraseIdx nr) + (rs.eraseIdx nr).length < fuel := by omega
        have := ih (rs.eraseIdx nr) (if (rs.eraseIdx nr).length ≤ nr then 0 else nr) nv lok hnr' hf'
        rw [if_neg h0]
        dsimp only
        refine ⟨this.1, this.2.1, by omega, this.2.2.2.1, ?_, ?_⟩
        · intro hy
          have := this.2.2.2.2.1 hy
          constructor
          · omega
          · exact this.2
        · intro t ht
          have := this.2.2.2.2.2 t ht
          constructor
          · omega
          · exact this.2
    case _ id t rest hget =>
      have hset : totalEvents (rs.set nr (id, rest)) + 1 = totalEvents rs :=
        totalEvents_set rs nr id (.tup t) rest h hget
      have hlen : (rs.set nr (id, rest)).length = rs.length := List.length_set ..
      dsimp only
      refine ⟨by simp, by simp, by omega, by simp, by simp, ?_⟩
      intro t' _
      exact ⟨by omega, by omega⟩
    case _ id rest hget =>
      have hset : totalEvents (rs.set nr (id, rest)) + 1 = totalEvents rs :=
        totalEvents_set rs nr id .empty rest h hget
      have hlen : (rs.set nr (id, rest)).length = rs.length := List.length_set ..
      have hnr' : (if (rs.set nr (id, rest)).length ≤ nr + 1 then 0 else nr + 1) <
          (rs.set nr (id, rest)).length := by
        split <;> omega
      have hf' : totalEvents (rs.set nr (id, rest)) + (rs.set nr (id, rest)).length < fuel := by
        omega
      by_cases hlap : (rs.set nr (id, rest)).length ≤ nv + 1
      · rw [if_pos hlap]
        by_cases hl : lok
        · rw [if_pos hl]
          dsimp only
          refine ⟨by simp, by simp, by omega, by simp, ?_, by simp⟩
          intro _
          exact ⟨by omega, hnr'⟩
        · rw [if_neg hl]
          have := ih (rs.set nr (id, rest))
            (if (rs.set nr (id, rest)).length ≤ nr + 1 then 0 else nr + 1) 0 lok hnr' hf'
          dsimp only
          refine ⟨this.1, this.2.1, by omega, this.2.2.2.1, ?_, ?_⟩
          · intro hy
            have := this.2.2.2.2.1 hy
            exact ⟨by omega, this.2⟩
          · intro t ht
            have := this.2.2.2.2.2 t ht
            exact ⟨by omega, this.2⟩
      · rw [if_neg hlap]
        have := ih (rs.set nr (id, rest))
          (if (rs.set nr (id, rest)).length ≤ nr + 1 then 0 else nr + 1) (nv + 1) lok hnr' hf'
        dsimp only
        refine ⟨this.1, this.2.1, by omega, this.2.2.2.1, ?_, ?_⟩
        · intro hy
          have := this.2.2.2.2.1 hy
          exact ⟨by omega, this.2⟩
        · intro t ht
          have := this.2.2.2.2.2 t ht
          exact ⟨by omega, this.2⟩

theorem mod_two_cases (a n : Nat) (h : a < 2 * n) :
    a % n = if a < n then a else a - n := by
  split
  · exact Nat.mod_eq_of_lt (by assumption)
  · rw [Nat.mod_eq_sub_mod (by omega)]
    exact Nat.mod_eq_of_lt (by omega)

theorem length_idsOf (rs : List Reader) : (idsOf rs).length = rs.length :=
  List.length_map ..

theorem idsOf_getD (rs : List Reader) (nr : Nat) (h : nr < rs.length) :
    (idsOf rs).getD nr 0 = (rs.get ⟨nr, h⟩).1 := by
  rw [List.getD_eq_getElem _ _ (by simpa [length_idsOf] using h)]
  simp [idsOf, List.getElem_map, List.get_eq_getElem]

theorem set_getD_self (l : List Nat) (i : Nat) (h : i < l.length) :
    l.set i (l.getD i 0) = l := by
  induction l generalizing i with
  | nil => simp at h
  | cons a l ih =>
    cases i with
    | zero => simp [List.set, List.getD]
    | succ n =>
      simp only [List.set, List.getD_cons_succ]
      rw [ih n (by simpa using h)]

theorem idsOf_set (rs : List Reader) (nr : Nat) (id : Nat) (rest : List QEvent)
    (h : nr < rs.length) (hid : (idsOf rs).getD nr 0 = id) :
    idsOf (rs.set nr (id, rest)) = idsOf rs := by
  unfold idsOf
  rw [List.map_set]
  show (idsOf rs).set nr id = idsOf rs
  rw [← hid]
  exact set_getD_self _ _ (by simpa [length_idsOf] using h)

theorem idsOf_eraseIdx (rs : List Reader) (i : Nat) :
    idsOf (rs.eraseIdx i) = (idsOf rs).eraseIdx i := by
  induction rs generalizing i with
  | nil => simp [idsOf, List.eraseIdx]
  | cons r rs ih =>
    cases i with
    | zero => simp [idsOf, List.eraseIdx]
    | succ n => simp [idsOf, List.eraseIdx] at ih ⊢; exact ih n

theorem getD_eraseIdx (l : List Nat) (i j : Nat) :
    (l.eraseIdx i).getD j 0 = if j < i then l.getD j 0 else l.getD (j + 1) 0 := by
  rw [List.getD_eq_getElem?_getD, List.getElem?_eraseIdx]
  split <;> rw [List.getD_eq_getElem?_getD]

theorem ReadInv_set_step (rs : List Reader) (nr nv : Nat) (S : List Nat) (id : Nat)
    (rest : List QEvent) (h : nr < rs.length) (hid : (idsOf rs).getD nr 0 = id)
    (hinv : ReadInv rs nr nv S) :
    ReadInv (rs.set nr (id, rest))
      (if (rs.set nr (id, rest)).length ≤ nr + 1 then 0 else nr + 1) (nv + 1) (id :: S) := by
  intro j hj hjl
  rw [idsOf_set rs nr id rest h hid] at *
  simp only [List.length_set] at hjl ⊢
  by_cases hwrap : rs.length ≤ nr + 1
  · rw [if_pos hwrap]
    cases j with
    | zero =>
      have hpos : (0 + rs.length - 1 - 0) % rs.length = nr := by
        rw [mod_two_cases _ _ (by omega)]
        split <;> omega
      rw [hpos, hid]
      exact List.mem_cons_self ..
    | succ j' =>
      have hpos : (0 + rs.length - 1 - (j' + 1)) % rs.length
          = (nr + rs.length - 1 - j') % rs.length := by
        rw [mod_two_cases _ _ (by omega), mod_two_cases _ _ (by omega)]
        split_ifs <;> omega
      rw [hpos]
      exact List.mem_cons_of_mem _ (hinv j' (by omega) (by omega))
  · rw [if_neg hwrap]
    cases j with
    | zero =>
      have hpos : (nr + 1 + rs.length - 1 - 0) % rs.length = nr := by
        rw [mod_two_cases _ _ (by omega)]
        split <;> omega
      rw [hpos, hid]
      exact List.mem_cons_self ..
    | succ j' =>
      have harg : nr + 1 + rs.length - 1 - (j' + 1) = nr + rs.length - 1 - j' := by omega
      rw [harg]
      exact List.mem_cons_of_mem _ (hinv j' (by omega) (by omega))

theorem ReadInv_erase_step (rs : List Reader) (nr nv : Nat) (S : List Nat)
    (h : nr < rs.length) (h0 : (rs.eraseIdx nr).length ≠ 0) (hinv : ReadInv rs nr nv S) :
    ReadInv (rs.eraseIdx nr) (if (rs.eraseIdx nr).length ≤ nr then 0 else nr) nv S := by
  have hlen : (rs.eraseIdx nr).length = rs.length - 1 := by
    rw [List.length_eraseIdx]
    simp [h]
  intro j hj hjl
  rw [idsOf_eraseIdx] at *
  rw [hlen] at hjl ⊢
  rw [getD_eraseIdx]
  by_cases hwrap : rs.length - 1 ≤ nr
  · rw [if_pos hwrap] at *
    have hq : (0 + (rs.length - 1) - 1 - j) % (rs.length - 1) = rs.length - 2 - j := by
      rw [mod_two_cases _ _ (by omega)]
      split <;> omega
    rw [hq, if_pos (by omega)]
    have hpos : (nr + rs.length - 1 - j) % rs.length = rs.length - 2 - j := by
      rw [mod_two_cases _ _ (by omega)]
      split <;> omega
    have := hinv j hj (by omega)
    rwa [hpos] at this
  · rw [if_neg hwrap] at *
    by_cases hjnr : j < nr
    · have hq : (nr + (rs.length - 1) - 1 - j) % (rs.length - 1) = nr - 1 - j := by
        rw [mod_two_cases _ _ (by omega)]
        split <;> omega
      rw [hq, if_pos (by omega)]
      have hpos : (nr + rs.length - 1 - j) % rs.length = nr - 1 - j := by
        rw [mod_two_cases _ _ (by omega)]
        split <;> omega
      have := hinv j hj (by omega)
      rwa [hpos] at this
    · have hq : (nr + (rs.length - 1) - 1 - j) % (rs.length - 1)
          = nr + rs.length - 2 - j := by
        rw [mod_two_cases _ _ (by omega)]
        split <;> omega
      rw [hq, if_neg (by omega)]
      have hpos : (nr + rs.length - 1 - j) % rs.length = nr + rs.length - 1 - j := by
        rw [mod_two_cases _ _ (by omega)]
        split <;> omega
      have := hinv j hj (by omega)
      rw [hpos] at this
      have he : nr + rs.length - 2 - j + 1 = nr + rs.length - 1 - j := by omega
      rwa [he]

theorem ReadInv_all (rs : List Reader) (nr nv : Nat) (S : List Nat)
    (hnr : nr < rs.length) (hfull : rs.length ≤ nv) (hinv : ReadInv rs nr nv S) :
    ∀ id ∈ idsOf rs, id ∈ S := by
  intro id hid
  obtain ⟨p, hp, hpe⟩ := List.mem_iff_getElem.mp hid
  rw [length_idsOf] at hp
  have hjval := mod_two_cases (nr + rs.length - 1 - p) rs.length (by omega)
  have hjlt : (nr + rs.length - 1 - p) % rs.length < rs.length := Nat.mod_lt _ (by omega)
  have hpos : (nr + rs.length - 1 - ((nr + rs.length - 1 - p) % rs.length)) % rs.length
      = p := by
    rw [mod_two_cases _ _ (by omega)]
    split_ifs at hjval ⊢ <;> omega
  have := hinv ((nr + rs.length - 1 - p) % rs.length) (by omega) hjlt
  rw [hpos] at this
  rwa [List.getD_eq_getElem _ _ (by rw [length_idsOf]; omega), hpe] at this

theorem readnextF_covered (fuel : Nat) :
    ∀ (rs : List Reader) (nr nv : Nat) (lok : Bool) (S : List Nat),
      nr < rs.length → ReadInv rs nr nv S →
      coveredB S (readnextF fuel rs nr nv lok).trace = true := by
  induction fuel with
  | zero =>
    intro rs nr nv lok S _ _
    simp [readnextF, coveredB]
  | succ fuel ih =>
    intro rs nr nv lok S h hinv
    simp only [readnextF, dif_pos h]
    split
    case _ id hget =>
      by_cases h0 : (rs.eraseIdx nr).length = 0
      · rw [if_pos h0]
        simp [coveredB]
      · rw [if_neg h0]
        dsimp only
        simp only [coveredB]
        apply ih
        · have : (rs.eraseIdx nr).length ≠ 0 := h0
          split <;> omega
        · intro j hj hjl
          exact List.mem_cons_of_mem _ (ReadInv_erase_step rs nr nv S h h0 hinv j hj hjl)
    case _ id t rest hget =>
      simp [coveredB]
    case _ id rest hget =>
      have hid : (idsOf rs).getD nr 0 = id := by
        rw [idsOf_getD rs nr h, hget]
      have hinv' := ReadInv_set_step rs nr nv S id rest h hid hinv
      by_cases hlap : (rs.set nr (id, rest)).length ≤ nv + 1
      · rw [if_pos hlap]
        by_cases hl : lok
        · rw [if_pos hl]
          simp [coveredB]
        · rw [if_neg hl]
          dsimp only
          simp only [coveredB, Bool.and_eq_true]
          constructor
          · rw [List.all_eq_true]
            intro x hx
            simp only [decide_eq_true_eq]
            refine ReadInv_all (rs.set nr (id, rest))
              (if (rs.set nr (id, rest)).length ≤ nr + 1 then 0 else nr + 1)
              (nv + 1) (id :: S) ?_ hlap hinv' x hx
            simp only [List.length_set]
            split <;> omega
          · apply ih
            · simp only [List.length_set]
              split <;> omega
            · intro j hj _
              omega
      · rw [if_neg hlap]
        dsimp only
        simp only [coveredB]
        apply ih
        · simp only [List.length_set]
          split <;> omega
        · exact hinv'

theorem gather_readnext_spec (rs : List Reader) (nr : Nat) (lok : Bool)
    (h : nr < rs.length) :
    (gather_readnext rs nr lok).out ≠ .outOfFuel ∧
    (gather_readnext rs nr lok).out ≠ .assertFailed ∧
    totalEvents (gather_readnext rs nr lok).readers +
      (gather_readnext rs nr lok).readers.length ≤ totalEvents rs + rs.length ∧
    ((gather_readnext rs nr lok).out = .exhausted →
      (gather_readnext rs nr lok).readers = []) ∧
    ((gather_readnext rs nr lok).out = .yieldLocal →
      totalEvents (gather_readnext rs nr lok).readers +
        (gather_readnext rs nr lok).readers.length < totalEvents rs + rs.length ∧
      (gather_readnext rs nr lok).next < (gather_readnext rs nr lok).readers.length) ∧
    (∀ t, (gather_readnext rs nr lok).out = .tuple t →
      totalEvents (gather_readnext rs nr lok).readers +
        (gather_readnext rs nr lok).readers.length < totalEvents rs + rs.length ∧
      (gather_readnext rs nr lok).next < (gather_readnext rs nr lok).readers.length) :=
  readnextF_spec (totalEvents rs + rs.length + 1) rs nr 0 lok h (by omega)

theorem readnextF_no_assert (fuel : Nat) :
    ∀ (rs : List Reader) (nr nv : Nat) (lok : Bool), nr < rs.length →
      (readnextF fuel rs nr nv lok).out ≠ .assertFailed := by
  induction fuel with
  | zero => intro rs nr nv lok _; simp [readnextF]
  | succ fuel ih =>
    intro rs nr nv lok h
    simp only [readnextF, dif_pos h]
    split
    case _ id hget =>
      by_cases h0 : (rs.eraseIdx nr).length = 0
      · rw [if_pos h0]; simp
      · rw [if_neg h0]
        dsimp only
        exact ih _ _ _ _ (by split <;> omega)
    case _ id t rest hget => simp
    case _ id rest hget =>
      by_cases hlap : (rs.set nr (id, rest)).length ≤ nv + 1
      · rw [if_pos hlap]
        by_cases hl : lok
        · rw [if_pos hl]; simp
        · rw [if_neg hl]
          dsimp only
          exact ih _ _ _ _ (by simp only [List.length_set]; split <;> omega)
      · rw [if_neg hlap]
        dsimp only
        exact ih _ _ _ _ (by simp only [List.length_set]; split <;> omega)

theorem readnextF_tuple_step (fuel : Nat) (rs : List Reader) (nr nv : Nat) (lok : Bool)
    (h : nr < rs.length) (id t : Nat) (rest : List QEvent)
    (hget : rs.get ⟨nr, h⟩ = (id, .tup t :: rest)) :
    readnextF (fuel + 1) rs nr nv lok
      = ⟨.tuple t, rs.set nr (id, rest), nr, [.poll id]⟩ := by
  simp only [readnextF, dif_pos h, hget]

theorem readnextF_done_step (fuel : Nat) (rs : List Reader) (nr nv : Nat) (lok : Bool)
    (h : nr < rs.length) (id : Nat) (hget : rs.get ⟨nr, h⟩ = (id, []))
    (h0 : (rs.eraseIdx nr).length ≠ 0) :
    (if (rs.eraseIdx nr).length ≤ nr then 0 else nr) < (rs.eraseIdx nr).length ∧
    readnextF (fuel + 1) rs nr nv lok
      = ⟨(readnextF fuel (rs.eraseIdx nr)
            (if (rs.eraseIdx nr).length ≤ nr then 0 else nr) nv lok).out,
         (readnextF fuel (rs.eraseIdx nr)
            (if (rs.eraseIdx nr).length ≤ nr then 0 else nr) nv lok).readers,
         (readnextF fuel (rs.eraseIdx nr)
            (if (rs.eraseIdx nr).length ≤ nr then 0 else nr) nv lok).next,
         .poll id :: (readnextF fuel (rs.eraseIdx nr)
            (if (rs.eraseIdx nr).length ≤ nr then 0 else nr) nv lok).trace⟩ := by
  constructor
  · split <;> omega
  · simp only [readnextF, dif_pos h, hget]
    rw [if_neg h0]

theorem readnextF_empty_step (fuel : Nat) (rs : List Reader) (nr nv : Nat) (lok : Bool)
    (h : nr < rs.length) (id : Nat) (rest : List QEvent)
    (hget : rs.get ⟨nr, h⟩ = (id, .empty :: rest))
    (hlap : ¬ (rs.set nr (id, rest)).length ≤ nv + 1) :
    readnextF (fuel + 1) rs nr nv lok
      = ⟨(readnextF fuel (rs.set nr (id, rest))
            (if (rs.set nr (id, rest)).length ≤ nr + 1 then 0 else nr + 1) (nv + 1) lok).out,
         (readnextF fuel (rs.set nr (id, rest))
            (if (rs.set nr (id, rest)).length ≤ nr + 1 then 0 else nr + 1) (nv + 1) lok).readers,
         (readnextF fuel (rs.set nr (id, rest))
            (if (rs.set nr (id, rest)).length ≤ nr + 1 then 0 else nr + 1) (nv + 1) lok).next,
         .poll id :: (readnextF fuel (rs.set nr (id, rest))
            (if (rs.set nr (id, rest)).length ≤ nr + 1 then 0 else nr + 1) (nv + 1) lok).trace⟩ := by
  simp only [readnextF, dif_pos h, hget]
  rw [if_neg hlap]

theorem readnextF_empty_wait_step (fuel : Nat) (rs : List Reader) (nr nv : Nat)
    (h : nr < rs.length) (id : Nat) (rest : List QEvent)
    (hget : rs.get ⟨nr, h⟩ = (id, .empty :: rest))
    (hlap : (rs.set nr (id, rest)).length ≤ nv + 1) :
    readnextF (fuel + 1) rs nr nv false
      = ⟨(readnextF fuel (rs.set nr (id, rest))
            (if (rs.set nr (id, rest)).length ≤ nr + 1 then 0 else nr + 1) 0 false).out,
         (readnextF fuel (rs.set nr (id, rest))
            (if (rs.set nr (id, rest)).length ≤ nr + 1 then 0 else nr + 1) 0 false).readers,
         (readnextF fuel (rs.set nr (id, rest))
            (if (rs.set nr (id, rest)).length ≤ nr + 1 then 0 else nr + 1) 0 false).next,
         .poll id :: .wait ((rs.set nr (id, rest)).map Prod.fst) ::
           (readnextF fuel (rs.set nr (id, rest))
            (if (rs.set nr (id, rest)).length ≤ nr + 1 then 0 else nr + 1) 0 false).trace⟩ := by
  simp only [readnextF, dif_pos h, hget]
  rw [if_pos hlap]
  simp

theorem readnextF_empty_yield_step (fuel : Nat) (rs : List Reader) (nr nv : Nat)
    (h : nr < rs.length) (id : Nat) (rest : List QEvent)
    (hget : rs.get ⟨nr, h⟩ = (id, .empty :: rest))
    (hlap : (rs.set nr (id, rest)).length ≤ nv + 1) :
    readnextF (fuel + 1) rs nr nv true
      = ⟨.yieldLocal, rs.set nr (id, rest),
         (if (rs.set nr (id, rest)).length ≤ nr + 1 then 0 else nr + 1), [.poll id]⟩ := by
  simp only [readnextF, dif_pos h, hget]
  rw [if_pos hlap]
  simp

theorem readnextF_sticky (fuel : Nat) :
    ∀ (rs : List Reader) (nr nv : Nat) (lok : Bool), nr < rs.length → ∀ t : Nat,
      (readnextF fuel rs nr nv lok).out = .tuple t →
      ∃ hlt : (readnextF fuel rs nr nv lok).next < (readnextF fuel rs nr nv lok).readers.length,
        (readnextF fuel rs nr nv lok).trace.getLast?
          = some (.poll ((readnextF fuel rs nr nv lok).readers.get
              ⟨(readnextF fuel rs nr nv lok).next, hlt⟩).1) := by
  induction fuel with
  | zero => intro rs nr nv lok _ t hout; simp [readnextF] at hout
  | succ fuel ih =>
    intro rs nr nv lok h t hout
    rcases hget : rs.get ⟨nr, h⟩ with ⟨id, script⟩
    match script, hget with
    | [], hget =>
      by_cases h0 : (rs.eraseIdx nr).length = 0
      · exfalso
        simp only [readnextF, dif_pos h, hget, if_pos h0] at hout
        simp at hout
      · have hstep := (readnextF_done_step fuel rs nr nv lok h id hget h0).2
        rw [hstep] at hout ⊢
        dsimp only at hout ⊢
        have hnr' : (if (rs.eraseIdx nr).length ≤ nr then 0 else nr) < (rs.eraseIdx nr).length := by
          split <;> omega
        obtain ⟨hlt, hlast⟩ := ih _ _ nv lok hnr' t hout
        refine ⟨hlt, ?_⟩
        rcases htr : (readnextF fuel (rs.eraseIdx nr)
            (if (rs.eraseIdx nr).length ≤ nr then 0 else nr) nv lok).trace with _ | ⟨e, l⟩
        · rw [htr] at hlast; simp at hlast
        · rw [htr] at hlast
          rw [List.getLast?_cons_cons]
          exact hlast
    | .tup t' :: rest, hget =>
      rw [readnextF_tuple_step fuel rs nr nv lok h id t' rest hget] at hout ⊢
      dsimp only at hout ⊢
      have : t' = t := by
        cases hout
        rfl
      subst this
      have hlt : nr < (rs.set nr (id, rest)).length := by
        simpa [List.length_set] using h
      refine ⟨hlt, ?_⟩
      have hg : (rs.set nr (id, rest)).get ⟨nr, hlt⟩ = (id, rest) := by
        simp [List.get_eq_getElem, List.getElem_set]
      rw [hg]
      simp
    | .empty :: rest, hget =>
      by_cases hlap : (rs.set nr (id, rest)).length ≤ nv + 1
      · match lok with
        | true =>
          rw [readnextF_empty_yield_step fuel rs nr nv h id rest hget hlap] at hout
          simp at hout
        | false =>
          rw [readnextF_empty_wait_step fuel rs nr nv h id rest hget hlap] at hout ⊢
          dsimp only at hout ⊢
          have hnr' : (if (rs.set nr (id, rest)).length ≤ nr + 1 then 0 else nr + 1)
              < (rs.set nr (id, rest)).length := by
            simp only [List.length_set]
            split <;> omega
          obtain ⟨hlt, hlast⟩ := ih _ _ 0 false hnr' t hout
          refine ⟨hlt, ?_⟩
          rcases htr : (readnextF fuel (rs.set nr (id, rest))
              (if (rs.set nr (id, rest)).length ≤ nr + 1 then 0 else nr + 1) 0 false).trace
              with _ | ⟨e, l⟩
          · rw [htr] at hlast; simp at hlast
          · rw [htr] at hlast
            rw [List.getLast?_cons_cons, List.getLast?_cons_cons]
            exact hlast
      · rw [readnextF_empty_step fuel rs nr nv lok h id rest hget hlap] at hout ⊢
        dsimp only at hout ⊢
        have hnr' : (if (rs.set nr (id, rest)).length ≤ nr + 1 then 0 else nr + 1)
            < (rs.set nr (id, rest)).length := by
          simp only [List.length_set]
          split <;> omega
        obtain ⟨hlt, hlast⟩ := ih _ _ (nv + 1) lok hnr' t hout
        refine ⟨hlt, ?_⟩
        rcases htr : (readnextF fuel (rs.set nr (id, rest))
            (if (rs.set nr (id, rest)).length ≤ nr + 1 then 0 else nr + 1) (nv + 1) lok).trace
            with _ | ⟨e, l⟩
        · rw [htr] at hlast; simp at hlast
        · rw [htr] at hlast
          rw [List.getLast?_cons_cons]
          exact hlast

theorem framePreserved_refl (g : GatherState) : framePreserved g g :=
  ⟨rfl, rfl, rfl, rfl, rfl, rfl, rfl, rfl, rfl, rfl, rfl, rfl, rfl, rfl, rfl⟩

theorem framePreserved_trans {g h k : GatherState}
    (h1 : framePreserved g h) (h2 : framePreserved h k) : framePreserved g k :=
  ⟨(h2.1).trans (h1.1), (h2.2.1).trans (h1.2.1), (h2.2.2.1).trans (h1.2.2.1), (h2.2.2.2.1).trans (h1.2.2.2.1), (h2.2.2.2.2.1).trans (h1.2.2.2.2.1), (h2.2.2.2.2.2.1).trans (h1.2.2.2.2.2.1), (h2.2.2.2.2.2.2.1).trans (h1.2.2.2.2.2.2.1), (h2.2.2.2.2.2.2.2.1).trans (h1.2.2.2.2.2.2.2.1), (h2.2.2.2.2.2.2.2.2.1).trans (h1.2.2.2.2.2.2.2.2.1), (h2.2.2.2.2.2.2.2.2.2.1).trans (h1.2.2.2.2.2.2.2.2.2.1), (h2.2.2.2.2.2.2.2.2.2.2.1).trans (h1.2.2.2.2.2.2.2.2.2.2.1), (h2.2.2.2.2.2.2.2.2.2.2.2.1).trans (h1.2.2.2.2.2.2.2.2.2.2.2.1), (h2.2.2.2.2.2.2.2.2.2.2.2.2.1).trans (h1.2.2.2.2.2.2.2.2.2.2.2.2.1), (h2.2.2.2.2.2.2.2.2.2.2.2.2.2.1).trans (h1.2.2.2.2.2.2.2.2.2.2.2.2.2.1), (h2.2.2.2.2.2.2.2.2.2.2.2.2.2.2).trans (h1.2.2.2.2.2.2.2.2.2.2.2.2.2.2)⟩

theorem ExecShutdownGatherWorkers_spec (g : GatherState) :
    (ExecShutdownGatherWorkers g).reader = none ∧
    (ExecShutdownGatherWorkers g).need_to_scan_locally = g.need_to_scan_locally ∧
    (ExecShutdownGatherWorkers g).nextreader = g.nextreader ∧
    (ExecShutdownGatherWorkers g).child = g.child ∧
    (ExecShutdownGatherWorkers g).local_calls = g.local_calls ∧
    framePreserved g (ExecShutdownGatherWorkers g) := by
  unfold ExecShutdownGatherWorkers framePreserved
  rcases hr : g.reader with _ | rs <;> by_cases hp : g.pei <;> simp [hp, hr]

theorem localTry_spec (g : GatherState) :
    (localTry g).2.reader = g.reader ∧
    (localTry g).2.nextreader = g.nextreader ∧
    ((localTry g).2.need_to_scan_locally = true → g.need_to_scan_locally = true) ∧
    (g.need_to_scan_locally = false → localTry g = (none, g)) ∧
    (∀ t, (localTry g).1 = some t → gmeasure (localTry g).2 + 1 ≤ gmeasure g ∧
      (localTry g).2.need_to_scan_locally = g.need_to_scan_locally) ∧
    ((localTry g).1 = none → gmeasure (localTry g).2 ≤ gmeasure g ∧
      (g.need_to_scan_locally = true → gmeasure (localTry g).2 + 1 ≤ gmeasure g)) ∧
    framePreserved g (localTry g).2 := by
  by_cases hnl : g.need_to_scan_locally = true
  · rcases hc : g.child with _ | ⟨t, rest⟩
    · simp only [localTry, hnl, hc, if_true]
      refine ⟨by simp, by simp, by simp, by simp [hnl], by simp, ?_, by simp [framePreserved]⟩
      intro _
      constructor
      · simp [gmeasure, hc, hnl] <;> omega
      · intro _
        simp [gmeasure, hc, hnl] <;> omega
    · simp only [localTry, hnl, hc, if_true]
      refine ⟨by simp, by simp, by simp [hnl], by simp [hnl], ?_, by simp, by simp [framePreserved]⟩
      intro t' _
      constructor
      · simp [gmeasure, hc, hnl] <;> omega
      · simp [hnl]
  · have hnl2 : g.need_to_scan_locally = false := by
      cases hb : g.need_to_scan_locally
      · rfl
      · exact absurd hb hnl
    simp [localTry, hnl2, framePreserved]

theorem gather_getnextF_spec (fuel : Nat) :
    ∀ g : GatherState, (∀ rs, g.reader = some rs → g.nextreader < rs.length) →
      gmeasure g < fuel →
      (∀ rs, (gather_getnextF fuel g).2.reader = some rs →
        (gather_getnextF fuel g).2.nextreader < rs.length) ∧
      ((gather_getnextF fuel g).1 = none → (gather_getnextF fuel g).2.reader = none ∧
        (gather_getnextF fuel g).2.need_to_scan_locally = false) ∧
      (∀ t, (gather_getnextF fuel g).1 = some t →
        gmeasure (gather_getnextF fuel g).2 < gmeasure g) ∧
      ((gather_getnextF fuel g).2.need_to_scan_locally = true →
        g.need_to_scan_locally = true) ∧
      (g.need_to_scan_locally = false →
        (gather_getnextF fuel g).2.local_calls = g.local_calls ∧
        (gather_getnextF fuel g).2.child = g.child) ∧
      framePreserved g (gather_getnextF fuel g).2 := by
  induction fuel with
  | zero =>
    intro g _ hm
    omega
  | succ fuel ih =>
    intro g hwf hm
    rcases hr : g.reader with _ | rs
    · simp only [gather_getnextF, hr]
      by_cases hnl : g.need_to_scan_locally = true
      · rw [if_pos hnl]
        obtain ⟨L1, L2, L3, L4, L5, L6, L7⟩ := localTry_spec g
        rcases hl : (localTry g).1 with _ | t
        · dsimp only
          have hm' : gmeasure (localTry g).2 < fuel := by
            have := (L6 hl).2 hnl
            omega
          have hwf' : ∀ rs, (localTry g).2.reader = some rs →
              (localTry g).2.nextreader < rs.length := by
            intro rs' heq
            rw [L1, hr] at heq
            cases heq
          obtain ⟨I1, I2, I3, I4, I5, I6⟩ := ih (localTry g).2 hwf' hm'
          refine ⟨I1, I2, ?_, fun hh => L3 (I4 hh), ?_, framePreserved_trans L7 I6⟩
          · intro t ht
            have := I3 t ht
            have := (L6 hl).2 hnl
            omega
          · intro hh
            rw [hh] at hnl
            cases hnl
        · dsimp only
          refine ⟨?_, by simp [hl], ?_, L3, ?_, L7⟩
          · intro rs' heq
            rw [L1, hr] at heq
            cases heq
          · intro t' ht'
            have := (L5 t' ht').1
            omega
          · intro hh
            rw [hh] at hnl
            cases hnl
      · rw [if_neg hnl]
        have hnl2 : g.need_to_scan_locally = false := by
          cases hb : g.need_to_scan_locally
          · rfl
          · exact absurd hb hnl
        exact ⟨hwf, fun _ => ⟨hr, hnl2⟩, by simp, fun h => h, fun _ => ⟨rfl, rfl⟩,
          framePreserved_refl g⟩
    · have hnr := hwf rs hr
      obtain ⟨Rof, Raf, Rle, Rex, Ry, Rt⟩ :=
        gather_readnext_spec rs g.nextreader g.need_to_scan_locally hnr
      have hgm : gmeasure g
          = totalEvents rs + rs.length + 1 + g.child.length
            + (if g.need_to_scan_locally then 1 else 0) := by
        unfold gmeasure
        rw [hr]
      simp only [gather_getnextF, hr]
      rcases ho : (gather_readnext rs g.nextreader g.need_to_scan_locally).out
        with t | _ | _ | _ | _
      · dsimp only
        refine ⟨?_, by simp, ?_, fun h => h, fun _ => ⟨rfl, rfl⟩, by simp [framePreserved]⟩
        · intro rs' heq
          have h1 := (Rt t ho).2
          cases heq
          exact h1
        · intro t' _
          have h1 := (Rt t ho).1
          unfold gmeasure
          rw [hr]
          dsimp only
          omega
      · dsimp only
        obtain ⟨S1, S2, S3, S4, S5, S6⟩ := ExecShutdownGatherWorkers_spec
          { g with reader := some (gather_readnext rs g.nextreader g.need_to_scan_locally).readers }
        set g1 := ExecShutdownGatherWorkers
          { g with reader := some (gather_readnext rs g.nextreader g.need_to_scan_locally).readers }
          with hg1
        have hfr1 : framePreserved g g1 := by
          refine framePreserved_trans ?_ S6
          simp [framePreserved]
        have hnl1 : g1.need_to_scan_locally = g.need_to_scan_locally := by
          rw [S2]
        have hm1 : gmeasure g1 + 1 ≤ gmeasure g := by
          have : gmeasure g1 = g.child.length + (if g1.need_to_scan_locally then 1 else 0) := by
            simp [gmeasure, S1, S4]
          rw [this, hgm, hnl1]
          omega
        obtain ⟨L1, L2, L3, L4, L5, L6, L7⟩ := localTry_spec g1
        rcases hl : (localTry g1).1 with _ | t
        · dsimp only
          have hm' : gmeasure (localTry g1).2 < fuel := by
            have := (L6 hl).1
            omega
          have hwf' : ∀ rs', (localTry g1).2.reader = some rs' →
              (localTry g1).2.nextreader < rs'.length := by
            intro rs' heq
            rw [L1, S1] at heq
            cases heq
          obtain ⟨I1, I2, I3, I4, I5, I6⟩ := ih (localTry g1).2 hwf' hm'
          refine ⟨I1, I2, ?_, ?_, ?_, framePreserved_trans (framePreserved_trans hfr1 L7) I6⟩
          · intro t ht
            have := I3 t ht
            have := (L6 hl).1
            omega
          · intro hh
            rw [← hnl1]
            exact L3 (I4 hh)
          · intro hh
            have hnl1f : g1.need_to_scan_locally = false := by rw [hnl1, hh]
            have hlt : localTry g1 = (none, g1) := L4 hnl1f
            rw [hlt]
            have := I5
            rw [hlt] at I5
            have h5 := I5 hnl1f
            exact ⟨h5.1.trans S5, h5.2.trans S4⟩
        · dsimp only
          refine ⟨?_, by simp [hl], ?_, ?_, ?_, framePreserved_trans hfr1 L7⟩
          · intro rs' heq
            rw [L1, S1] at heq
            cases heq
          · intro t' ht'
            have := (L5 t' ht').1
            omega
          · intro hh
            rw [← hnl1]
            exact L3 hh
          · intro hh
            have hnl1f : g1.need_to_scan_locally = false := by rw [hnl1, hh]
            have hlt : localTry g1 = (none, g1) := L4 hnl1f
            rw [hlt] at hl
            cases hl
      · dsimp only
        set g1 : GatherState :=
          { g with reader := some (gather_readnext rs g.nextreader g.need_to_scan_locally).readers,
                   nextreader := (gather_readnext rs g.nextreader g.need_to_scan_locally).next }
          with hg1
        have hfr1 : framePreserved g g1 := by simp [hg1, framePreserved]
        have hylt := Ry ho
        have hm1 : gmeasure g1 < gmeasure g := by
          have : gmeasure g1
              = totalEvents (gather_readnext rs g.nextreader g.need_to_scan_locally).readers
                + (gather_readnext rs g.nextreader g.need_to_scan_locally).readers.length + 1
                + g.child.length + (if g.need_to_scan_locally then 1 else 0) := by
            simp [gmeasure, hg1]
          rw [this, hgm]
          omega
        have hwf1 : ∀ rs', g1.reader = some rs' → g1.nextreader < rs'.length := by
          intro rs' heq
          simp only [hg1] at heq ⊢
          cases heq
          exact hylt.2
        obtain ⟨L1, L2, L3, L4, L5, L6, L7⟩ := localTry_spec g1
        rcases hl : (localTry g1).1 with _ | t
        · dsimp only
          have hm' : gmeasure (localTry g1).2 < fuel := by
            have := (L6 hl).1
            omega
          have hwf' : ∀ rs', (localTry g1).2.reader = some rs' →
              (localTry g1).2.nextreader < rs'.length := by
            intro rs' heq
            rw [L1] at heq
            rw [L2]
            exact hwf1 rs' heq
          obtain ⟨I1, I2, I3, I4, I5, I6⟩ := ih (localTry g1).2 hwf' hm'
          refine ⟨I1, I2, ?_, ?_, ?_, framePreserved_trans (framePreserved_trans hfr1 L7) I6⟩
          · intro t ht
            have := I3 t ht
            have := (L6 hl).1
            omega
          · intro hh
            have : g1.need_to_scan_locally = g.need_to_scan_locally := by simp [hg1]
            rw [← this]
            exact L3 (I4 hh)
          · intro hh
            have hnl1f : g1.need_to_scan_locally = false := by simp [hg1, hh]
            have hlt : localTry g1 = (none, g1) := L4 hnl1f
            rw [hlt] at I5
            have h5 := I5 hnl1f
            have hlc : g1.local_calls = g.local_calls := by simp [hg1]
            have hch : g1.child = g.child := by simp [hg1]
            rw [hlt]
            exact ⟨h5.1.trans hlc, h5.2.trans hch⟩
        · dsimp only
          refine ⟨?_, by simp [hl], ?_, ?_, ?_, framePreserved_trans hfr1 L7⟩
          · intro rs' heq
            rw [L1] at heq
            rw [L2]
            exact hwf1 rs' heq
          · intro t' ht'
            have := (L5 t' ht').1
            omega
          · intro hh
            have : g1.need_to_scan_locally = g.need_to_scan_locally := by simp [hg1]
            rw [← this]
            exact L3 hh
          · intro hh
            have hnl1f : g1.need_to_scan_locally = false := by simp [hg1, hh]
            have hlt : localTry g1 = (none, g1) := L4 hnl1f
            rw [hlt] at hl
            cases hl
      · exact absurd ho Raf
      · exact absurd ho Rof

theorem gather_getnext_spec (g : GatherState)
    (hwf : ∀ rs, g.reader = some rs → g.nextreader < rs.length) :
    (∀ rs, (gather_getnext g).2.reader = some rs →
      (gather_getnext g).2.nextreader < rs.length) ∧
    ((gather_getnext g).1 = none → (gather_getnext g).2.reader = none ∧
      (gather_getnext g).2.need_to_scan_locally = false) ∧
    (∀ t, (gather_getnext g).1 = some t →
      gmeasure (gather_getnext g).2 < gmeasure g) ∧
    ((gather_getnext g).2.need_to_scan_locally = true → g.need_to_scan_locally = true) ∧
    (g.need_to_scan_locally = false →
      (gather_getnext g).2.local_calls = g.local_calls ∧
      (gather_getnext g).2.child = g.child) ∧
    framePreserved g (gather_getnext g).2 :=
  gather_getnextF_spec (gmeasure g + 1) g hwf (by omega)

theorem execGatherInitStep_frame (g : GatherState) :
    (execGatherInitStep g).initialized = true ∧
    (execGatherInitStep g).child = g.child ∧
    (execGatherInitStep g).child0 = g.child0 ∧
    (execGatherInitStep g).proj = g.proj ∧
    (execGatherInitStep g).qual = g.qual ∧
    (execGatherInitStep g).single_copy = g.single_copy ∧
    (execGatherInitStep g).num_workers = g.num_workers ∧
    (execGatherInitStep g).parallel_send = g.parallel_send ∧
    (execGatherInitStep g).env_queues = g.env_queues ∧
    (execGatherInitStep g).enable_statistic = g.enable_statistic ∧
    (execGatherInitStep g).is_parallel_worker = g.is_parallel_worker ∧
    (execGatherInitStep g).in_parallel_mode = g.in_parallel_mode ∧
    (execGatherInitStep g).get_tuples = g.get_tuples ∧
    (execGatherInitStep g).get_total_time = g.get_total_time ∧
    (execGatherInitStep g).local_calls = g.local_calls := by
  by_cases hlp : 0 < g.num_workers ∧ g.in_parallel_mode = true <;>
  by_cases hq : 0 < g.env_queues.length <;>
  by_cases hps : g.parallel_send = true <;>
  by_cases hpei : g.pei = true <;>
  by_cases hrd : g.reader.isSome = true <;>
    simp [execGatherInitStep, ExecShutdownGatherWorkers, hlp, hq, hps, hpei, hrd]

theorem execGatherInitStep_need (g : GatherState) :
    (g.parallel_send = true → (execGatherInitStep g).need_to_scan_locally = false) ∧
    (g.parallel_send = false →
      (execGatherInitStep g).need_to_scan_locally = (execGatherInitStep g).reader.isNone) := by
  constructor
  · intro hps
    by_cases hlp : 0 < g.num_workers ∧ g.in_parallel_mode = true <;>
    by_cases hq : 0 < g.env_queues.length <;>
    by_cases hpei : g.pei = true <;>
    by_cases hrd : g.reader.isSome = true <;>
      simp [execGatherInitStep, ExecShutdownGatherWorkers, hlp, hq, hps, hpei, hrd]
  · intro hps
    by_cases hlp : 0 < g.num_workers ∧ g.in_parallel_mode = true <;>
    by_cases hq : 0 < g.env_queues.length <;>
    by_cases hpei : g.pei = true <;>
    by_cases hrd : g.reader.isSome = true <;>
      simp [execGatherInitStep, ExecShutdownGatherWorkers, hlp, hq, hps, hpei, hrd]

theorem execGatherInitStep_launch (g : GatherState) (hw : 0 < g.num_workers)
    (hp : g.in_parallel_mode = true) (hq : g.env_queues ≠ [])
    (hps : g.parallel_send = false) :
    (execGatherInitStep g).reader = some g.env_queues ∧
    (execGatherInitStep g).nextreader = 0 ∧
    (execGatherInitStep g).need_to_scan_locally = false ∧
    (execGatherInitStep g).pei = true ∧
    (execGatherInitStep g).nworkers_launched = g.env_queues.length ∧
    (g.pei = true → (execGatherInitStep g).reinit_count = g.reinit_count + 1) ∧
    (g.pei = false → (execGatherInitStep g).reinit_count = g.reinit_count) ∧
    (execGatherInitStep g).finish_count = g.finish_count := by
  have hlen : 0 < g.env_queues.length := List.length_pos.mpr hq
  by_cases hpei : g.pei = true <;>
    simp [execGatherInitStep, ExecShutdownGatherWorkers, hw, hp, hps, hpei, hlen,
      Option.isNone]

theorem execGatherInitStep_nolaunch (g : GatherState) (hreader : g.reader = none)
    (hq : g.env_queues = []) (hps : g.parallel_send = false) :
    (execGatherInitStep g).reader = none ∧
    (execGatherInitStep g).need_to_scan_locally = true := by
  by_cases hlp : 0 < g.num_workers ∧ g.in_parallel_mode = true <;>
  by_cases hpei : g.pei = true <;>
    simp [execGatherInitStep, ExecShutdownGatherWorkers, hlp, hq, hps, hpei, hreader,
      Option.isNone]

theorem execGatherInitStep_ps (g : GatherState) (hreader : g.reader = none)
    (hps : g.parallel_send = true) :
    (execGatherInitStep g).reader = none ∧
    (execGatherInitStep g).need_to_scan_locally = false := by
  by_cases hlp : 0 < g.num_workers ∧ g.in_parallel_mode = true <;>
  by_cases hq : 0 < g.env_queues.length <;>
  by_cases hpei : g.pei = true <;>
    simp [execGatherInitStep, ExecShutdownGatherWorkers, hlp, hq, hps, hpei, hreader]

theorem execGatherInitStep_wf (g : GatherState) (hreader : g.reader = none) :
    ∀ rs, (execGatherInitStep g).reader = some rs →
      (execGatherInitStep g).nextreader < rs.length := by
  intro rs heq
  by_cases hps : g.parallel_send = true
  · obtain ⟨h1, _⟩ := execGatherInitStep_ps g hreader hps
    rw [h1] at heq
    cases heq
  · have hps2 : g.parallel_send = false := by
      cases hb : g.parallel_send
      · rfl
      · exact absurd hb hps
    by_cases hlp : 0 < g.num_workers ∧ g.in_parallel_mode = true
    · by_cases hq : g.env_queues = []
      · obtain ⟨h1, _⟩ := execGatherInitStep_nolaunch g hreader hq hps2
        rw [h1] at heq
        cases heq
      · obtain ⟨h1, h2, _⟩ := execGatherInitStep_launch g hlp.1 hlp.2 hq hps2
        rw [h1] at heq
        cases heq
        rw [h2]
        exact List.length_pos.mpr hq
    · exfalso
      unfold execGatherInitStep at heq
      rw [if_neg hlp] at heq
      by_cases hpei : g.pei = true <;> simp [hps2, hpei, hreader] at heq

theorem gmeasure_stats_invariant (g : GatherState) (a : Nat) (t : Int) :
    gmeasure { g with get_tuples := a, get_total_time := t } = gmeasure g := rfl

theorem ExecGather_terminal (g : GatherState) (b e : Int) (ht : Terminal g = true) :
    ExecGather g b e = (none, g) := by
  have h1 : g.initialized = true := by
    simp only [Terminal, Bool.and_eq_true] at ht
    exact ht.1.1
  have h2 : g.reader = none := by
    simp only [Terminal, Bool.and_eq_true, Option.isNone_iff_eq_none] at ht
    exact ht.1.2
  have h3 : g.need_to_scan_locally = false := by
    simp only [Terminal, Bool.and_eq_true, Bool.not_eq_true'] at ht
    exact ht.2
  have hget : gather_getnext g = (none, g) := by
    unfold gather_getnext
    have : gmeasure g + 1 = g.child.length + 1 := by
      unfold gmeasure
      rw [h2, h3]
      simp
    rw [this]
    simp only [gather_getnextF, h2, h3]
    simp
  simp only [ExecGather, h1, hget]
  rcases hw : g.is_parallel_worker <;> simp [hw, h1, hget]

theorem ExecGather_call (g : GatherState) (b e : Int) (hinit : g.initialized = true)
    (hwf : ∀ rs, g.reader = some rs → g.nextreader < rs.length) :
    (∀ rs, (ExecGather g b e).2.reader = some rs →
      (ExecGather g b e).2.nextreader < rs.length) ∧
    (ExecGather g b e).2.initialized = true ∧
    ((ExecGather g b e).1 = none → Terminal (ExecGather g b e).2 = true ∧
      (ExecGather g b e).2 = (gather_getnext g).2) ∧
    (∀ t, (ExecGather g b e).1 = some t → gmeasure (ExecGather g b e).2 < gmeasure g) ∧
    ((ExecGather g b e).2.need_to_scan_locally = true → g.need_to_scan_locally = true) ∧
    (g.need_to_scan_locally = false →
      (ExecGather g b e).2.local_calls = g.local_calls) ∧
    (ExecGather g b e).2.pei = g.pei ∧
    (ExecGather g b e).2.proj = g.proj ∧
    (ExecGather g b e).2.reinit_count = g.reinit_count ∧
    (ExecGather g b e).2.enable_statistic = g.enable_statistic ∧
    (ExecGather g b e).2.env_queues = g.env_queues ∧
    (ExecGather g b e).2.child0 = g.child0 ∧
    (ExecGather g b e).2.is_parallel_worker = g.is_parallel_worker ∧
    (ExecGather g b e).2.in_parallel_mode = g.in_parallel_mode ∧
    (ExecGather g b e).2.parallel_send = g.parallel_send ∧
    (ExecGather g b e).2.num_workers = g.num_workers ∧
    (ExecGather g b e).2.single_copy = g.single_copy ∧
    (g.enable_statistic = true → g.need_to_scan_locally = false →
      (∀ t, (ExecGather g b e).1 = some t →
        (ExecGather g b e).2.get_tuples = g.get_tuples + 1 ∧
        (ExecGather g b e).2.get_total_time =
          (if g.get_total_time = -1 then 0 else g.get_total_time + (e - b)))) ∧
    ((ExecGather g b e).1 = none → (ExecGather g b e).2.get_tuples = g.get_tuples ∧
      (ExecGather g b e).2.get_total_time = g.get_total_time) ∧
    (∀ t, (ExecGather g b e).1 = some t →
      ∃ t0, (gather_getnext g).1 = some t0 ∧ t = g.proj t0) := by
  obtain ⟨G1, G2, G3, G4, G5, GF⟩ := gather_getnext_spec g hwf
  obtain ⟨F1, F2, F3, F4, F5, F6, F7, F8, F9, F10, F11, F12, F13, F14, F15⟩ := GF
  have hexec : ExecGather g b e
      = (match (gather_getnext g).1 with
         | none => (none, (gather_getnext g).2)
         | some t =>
           (some (g.proj t),
            if (gather_getnext g).2.enable_statistic = true
                ∧ ¬ (gather_getnext g).2.need_to_scan_locally = true then
              if (gather_getnext g).2.get_total_time = -1 then
                { (gather_getnext g).2 with
                    get_tuples := (gather_getnext g).2.get_tuples + 1,
                    get_total_time := 0 }
              else
                { (gather_getnext g).2 with
                    get_tuples := (gather_getnext g).2.get_tuples + 1,
                    get_total_time := (gather_getnext g).2.get_total_time
                      + (e - (if g.enable_statistic = true
                              ∧ ¬ g.need_to_scan_locally = true then b else 0)) }
            else (gather_getnext g).2)) := by
    simp only [ExecGather, hinit]
    rcases hw : g.is_parallel_worker <;> simp [hw, hinit]
  rcases hro : (gather_getnext g).1 with _ | t
  · rw [hro] at hexec
    simp only at hexec
    rw [hexec]
    have hterm : Terminal (gather_getnext g).2 = true := by
      simp [Terminal, F1, hinit, (G2 hro).1, (G2 hro).2]
    refine ⟨G1, by rw [F1]; exact hinit, fun _ => ⟨hterm, rfl⟩, by simp, G4, ?_, F2, F3,
      F15, F7, F8, F9, F10, F11, F12, F13, F14, by simp, fun _ => ⟨F5, F6⟩, by simp⟩
    intro hh
    exact (G5 hh).1
  · rw [hro] at hexec
    simp only at hexec
    by_cases hst : (gather_getnext g).2.enable_statistic = true
        ∧ ¬ (gather_getnext g).2.need_to_scan_locally = true
    · rw [if_pos hst] at hexec
      by_cases htt : (gather_getnext g).2.get_total_time = -1
      · rw [if_pos htt] at hexec
        rw [hexec]
        dsimp only
        refine ⟨G1, by rw [F1]; exact hinit, by simp, ?_, G4, ?_, F2, F3, F15, F7, F8,
          F9, F10, F11, F12, F13, F14, ?_, by simp, ?_⟩
        · intro t' _
          rw [gmeasure_stats_invariant]
          exact G3 t hro
        · intro hh
          exact (G5 hh).1
        · intro hse hnl t' _
          refine ⟨by rw [F5], ?_⟩
          have hg2 : g.get_total_time = -1 := F6.symm.trans htt
          rw [if_pos hg2]
        · intro t' ht'
          cases ht'
          exact ⟨t, rfl, rfl⟩
      · rw [if_neg htt] at hexec
        rw [hexec]
        dsimp only
        refine ⟨G1, by rw [F1]; exact hinit, by simp, ?_, G4, ?_, F2, F3, F15, F7, F8,
          F9, F10, F11, F12, F13, F14, ?_, by simp, ?_⟩
        · intro t' _
          rw [gmeasure_stats_invariant]
          exact G3 t hro
        · intro hh
          exact (G5 hh).1
        · intro hse hnl t' _
          refine ⟨by rw [F5], ?_⟩
          have hg2 : ¬ g.get_total_time = -1 := fun hh => htt (F6.trans hh)
          rw [F6, if_neg hg2, if_pos (by exact ⟨hse, by simp [hnl]⟩)]
        · intro t' ht'
          cases ht'
          exact ⟨t, rfl, rfl⟩
    · rw [if_neg hst] at hexec
      rw [hexec]
      dsimp only
      refine ⟨G1, by rw [F1]; exact hinit, by simp, ?_, G4, ?_, F2, F3, F15, F7, F8,
        F9, F10, F11, F12, F13, F14, ?_, by simp, ?_⟩
      · intro t' _
        exact G3 t hro
      · intro hh
        exact (G5 hh).1
      · intro hse hnl
        exfalso
        apply hst
        constructor
        · rw [F7]
          exact hse
        · intro hcon
          rw [G4 hcon] at hnl
          cases hnl
      · intro t' ht'
        cases ht'
        exact ⟨t, rfl, rfl⟩

theorem ExecGather_first (g : GatherState) (b e : Int) (hinit : g.initialized = false)
    (hw : g.is_parallel_worker = false) :
    ExecGather g b e
      = if g.parallel_send = true then (none, execGatherInitStep g)
        else ExecGather (execGatherInitStep g) b e := by
  have hinit' : (execGatherInitStep g).initialized = true := (execGatherInitStep_frame g).1
  have hw' : (execGatherInitStep g).is_parallel_worker = g.is_parallel_worker :=
    (execGatherInitStep_frame g).2.2.2.2.2.2.2.2.2.2.1
  by_cases hps : g.parallel_send = true
  · rw [if_pos hps]
    simp [ExecGather, hinit, hw, hps]
  · have hps2 : g.parallel_send = false := by
      cases hb : g.parallel_send
      · rfl
      · exact absurd hb hps
    rw [if_neg hps]
    conv =>
      rhs
      rw [ExecGather]
    simp only [hinit', hw', hw]
    simp only [ExecGather, hinit, hw, hps2]
    simp

theorem ExecGather_first_worker (g : GatherState) (b e : Int)
    (hinit : g.initialized = false) (hw : g.is_parallel_worker = true) :
    ExecGather g b e
      = ExecGather
          { g with reader := none, need_to_scan_locally := true, initialized := true } b e := by
  conv =>
    rhs
    rw [ExecGather]
  simp only [ExecGather, hinit, hw]
  simp

theorem ExecGather_wfg (g : GatherState) (b e : Int) (h : WFG g = true) :
    WFG (ExecGather g b e).2 = true := by
  have hcur : ∀ rs, g.reader = some rs → g.nextreader < rs.length := by
    intro rs heq
    simp only [WFG, Bool.and_eq_true, heq] at h
    exact of_decide_eq_true h.1
  rcases hinit : g.initialized
  · have hrd : g.reader = none := by
      simp only [WFG, Bool.and_eq_true, hinit] at h
      simpa [Option.isNone_iff_eq_none] using h.2
    rcases hw : g.is_parallel_worker
    · rw [ExecGather_first g b e hinit hw]
      by_cases hps : g.parallel_send = true
      · rw [if_pos hps]
        simp only [WFG, Bool.and_eq_true]
        constructor
        · rcases hre : (execGatherInitStep g).reader with _ | rs
          · simp
          · simp only [decide_eq_true_eq]
            exact execGatherInitStep_wf g hrd rs hre
        · simp [(execGatherInitStep_frame g).1]
      · rw [if_neg hps]
        have C := ExecGather_call (execGatherInitStep g) b e (execGatherInitStep_frame g).1
          (execGatherInitStep_wf g hrd)
        simp only [WFG, Bool.and_eq_true]
        constructor
        · rcases hre : (ExecGather (execGatherInitStep g) b e).2.reader with _ | rs
          · simp
          · simp only [decide_eq_true_eq]
            exact C.1 rs hre
        · simp [C.2.1]
    · rw [ExecGather_first_worker g b e hinit hw]
      set gw : GatherState := { g with reader := none, need_to_scan_locally := true, initialized := true } with hgw
      have hi2 : gw.initialized = true := rfl
      have C := ExecGather_call gw b e hi2 (by intro rs heq; cases heq)
      simp only [WFG, Bool.and_eq_true]
      constructor
      · rcases hre : (ExecGather gw b e).2.reader with _ | rs
        · simp
        · simp only [decide_eq_true_eq]
          exact C.1 rs hre
      · simp [C.2.1]
  · have C := ExecGather_call g b e hinit hcur
    simp only [WFG, Bool.and_eq_true]
    constructor
    · rcases hre : (ExecGather g b e).2.reader with _ | rs
      · simp
      · simp only [decide_eq_true_eq]
        exact C.1 rs hre
    · simp [C.2.1]

theorem iterateCalls_terminal (ts : List (Int × Int)) :
    ∀ g : GatherState, Terminal g = true →
      (∀ o ∈ (iterateCalls g ts).1, o = none) ∧ (iterateCalls g ts).2 = g := by
  induction ts with
  | nil =>
    intro g _
    exact ⟨by simp [iterateCalls], rfl⟩
  | cons p ts ih =>
    intro g ht
    have hstep := ExecGather_terminal g p.1 p.2 ht
    simp only [iterateCalls, hstep]
    obtain ⟨ih1, ih2⟩ := ih g ht
    constructor
    · intro o ho
      simp only [List.mem_cons] at ho
      rcases ho with h1 | h2
      · exact h1
      · exact ih1 o h2
    · exact ih2

theorem ExecGather_none_terminal (g : GatherState) (b e : Int) (hwfg : WFG g = true)
    (hnone : (ExecGather g b e).1 = none) : Terminal (ExecGather g b e).2 = true := by
  have hcur : ∀ rs, g.reader = some rs → g.nextreader < rs.length := by
    intro rs heq
    simp only [WFG, Bool.and_eq_true, heq] at hwfg
    exact of_decide_eq_true hwfg.1
  rcases hinit : g.initialized
  · have hrd : g.reader = none := by
      simp only [WFG, Bool.and_eq_true, hinit] at hwfg
      simpa [Option.isNone_iff_eq_none] using hwfg.2
    rcases hw : g.is_parallel_worker
    · rw [ExecGather_first g b e hinit hw] at hnone ⊢
      by_cases hps : g.parallel_send = true
      · rw [if_pos hps] at hnone ⊢
        obtain ⟨hr1, hn1⟩ := execGatherInitStep_ps g hrd hps
        simp [Terminal, (execGatherInitStep_frame g).1, hr1, hn1]
      · rw [if_neg hps] at hnone ⊢
        exact ((ExecGather_call (execGatherInitStep g) b e (execGatherInitStep_frame g).1
          (execGatherInitStep_wf g hrd)).2.2.1 hnone).1
    · rw [ExecGather_first_worker g b e hinit hw] at hnone ⊢
      exact ((ExecGather_call _ b e rfl (by intro rs heq; cases heq)).2.2.1 hnone).1
  · exact ((ExecGather_call g b e hinit hcur).2.2.1 hnone).1

/-- C1 counterexample: a normal-mode Gather (`single_copy = false`,
`parallel_send = false`, `num_workers = 2`) in parallel mode whose launch
starts one worker.  After the first `next()` call has performed first-call
initialization, the code (the `__TBASE__` branch of `ExecGather`) has set
`need_to_scan_locally = (reader == NULL) = false`, not `true` as the claim
states: with a launched worker the leader does not participate locally. -/
theorem c1_counterexample :
    (ExecGather (ExecInitGather false 2 false (fun t => t) (fun _ => true) []
        false true false [(0, [QEvent.tup 5])]) 0 0).2.nworkers_launched = 1 ∧
    ¬ ((ExecGather (ExecInitGather false 2 false (fun t => t) (fun _ => true) []
        false true false [(0, [QEvent.tup 5])]) 0 0).2.need_to_scan_locally = true) := by
  decide

/-- C1 amended: after first-call initialization in the non-worker path with
`parallel_send = false`, `need_to_scan_locally` is set to `(reader == NULL)`
regardless of launch outcome: `false` whenever at least one worker was
launched (readers exist), and `true` only when no worker was launched.
The leader does not always participate in normal mode. -/
theorem c1_need_to_scan_locally (g : GatherState) (hps : g.parallel_send = false) :
    (execGatherInitStep g).need_to_scan_locally = (execGatherInitStep g).reader.isNone ∧
    (g.reader = none → 0 < g.num_workers → g.in_parallel_mode = true →
      g.env_queues ≠ [] → (execGatherInitStep g).need_to_scan_locally = false) ∧
    (g.reader = none → g.env_queues = [] →
      (execGatherInitStep g).need_to_scan_locally = true) := by
  refine ⟨(execGatherInitStep_need g).2 hps, ?_, ?_⟩
  · intro _ h2 h3 h4
    exact (execGatherInitStep_launch g h2 h3 h4 hps).2.2.1
  · intro h1 h2
    exact (execGatherInitStep_nolaunch g h1 h2 hps).2

theorem c1_witness :
    (ExecInitGather false 2 false (fun t => t) (fun _ => true) []
        false true false [(0, [QEvent.tup 5])]).parallel_send = false ∧
    ((execGatherInitStep (ExecInitGather false 2 false (fun t => t) (fun _ => true) []
        false true false [(0, [QEvent.tup 5])])).need_to_scan_locally
      = (execGatherInitStep (ExecInitGather false 2 false (fun t => t) (fun _ => true) []
        false true false [(0, [QEvent.tup 5])])).reader.isNone ∧
    ((ExecInitGather false 2 false (fun t => t) (fun _ => true) []
        false true false [(0, [QEvent.tup 5])]).reader = none →
      0 < (ExecInitGather false 2 false (fun t => t) (fun _ => true) []
        false true false [(0, [QEvent.tup 5])]).num_workers →
      (ExecInitGather false 2 false (fun t => t) (fun _ => true) []
        false true false [(0, [QEvent.tup 5])]).in_parallel_mode = true →
      (ExecInitGather false 2 false (fun t => t) (fun _ => true) []
        false true false [(0, [QEvent.tup 5])]).env_queues ≠ [] →
      (execGatherInitStep (ExecInitGather false 2 false (fun t => t) (fun _ => true) []
        false true false [(0, [QEvent.tup 5])])).need_to_scan_locally = false) ∧
    ((ExecInitGather false 2 false (fun t => t) (fun _ => true) []
        false true false [(0, [QEvent.tup 5])]).reader = none →
      (ExecInitGather false 2 false (fun t => t) (fun _ => true) []
        false true false [(0, [QEvent.tup 5])]).env_queues = [] →
      (execGatherInitStep (ExecInitGather false 2 false (fun t => t) (fun _ => true) []
        false true false [(0, [QEvent.tup 5])])).need_to_scan_locally = true)) :=
  ⟨by decide, c1_need_to_scan_locally _ (by decide)⟩

/-- C3: once `next()` has returned the empty sentinel, every subsequent call
without an intervening `rescan()` also returns the empty sentinel: a
well-formed state on which `ExecGather` returns `none` is left terminal, and
any further sequence of calls yields only `none`. -/
theorem c3_terminal_absorbing (g : GatherState) (b e : Int) (ts : List (Int × Int))
    (hwfg : WFG g = true) (hnone : (ExecGather g b e).1 = none) :
    ∀ o ∈ (iterateCalls (ExecGather g b e).2 ts).1, o = none :=
  (iterateCalls_terminal ts _ (ExecGather_none_terminal g b e hwfg hnone)).1

theorem c3_witness :
    WFG (ExecInitGather false 0 false (fun t => t) (fun _ => true) []
        false false false []) = true ∧
    (ExecGather (ExecInitGather false 0 false (fun t => t) (fun _ => true) []
        false false false []) 0 0).1 = none ∧
    ∀ o ∈ (iterateCalls (ExecGather (ExecInitGather false 0 false (fun t => t)
        (fun _ => true) [] false false false []) 0 0).2 [(0, 0), (1, 2)]).1, o = none :=
  ⟨by decide, by decide,
   c3_terminal_absorbing (ExecInitGather false 0 false (fun t => t) (fun _ => true) []
     false false false []) 0 0 [(0, 0), (1, 2)] (by decide) (by decide)⟩

/-- C4: when the poll loop's read returns a tuple, the round-robin cursor is
left unchanged (the returned state's `nextreader` is the index just read, so
the cursor stays sticky on the productive queue), and whenever an invocation
of the loop returns a tuple, the final cursor still indexes the reader whose
poll (the last read attempt of the invocation) produced the tuple. -/
theorem c4_sticky_cursor (fuel : Nat) (rs : List Reader) (nr nv : Nat) (lok : Bool)
    (h : nr < rs.length) :
    (∀ id t rest, rs.get ⟨nr, h⟩ = (id, .tup t :: rest) →
      readnextF (fuel + 1) rs nr nv lok
        = ⟨.tuple t, rs.set nr (id, rest), nr, [.poll id]⟩) ∧
    (∀ t, (readnextF fuel rs nr nv lok).out = .tuple t →
      ∃ hlt : (readnextF fuel rs nr nv lok).next
          < (readnextF fuel rs nr nv lok).readers.length,
        (readnextF fuel rs nr nv lok).trace.getLast?
          = some (.poll ((readnextF fuel rs nr nv lok).readers.get
              ⟨(readnextF fuel rs nr nv lok).next, hlt⟩).1)) :=
  ⟨fun id t rest hget => readnextF_tuple_step fuel rs nr nv lok h id t rest hget,
   fun t hout => readnextF_sticky fuel rs nr nv lok h t hout⟩

theorem c4_witness :
    readnextF 1 [((0 : Nat), [QEvent.tup 7, QEvent.empty])] 0 0 false
      = ⟨.tuple 7, [((0 : Nat), [QEvent.empty])], 0, [.poll 0]⟩ :=
  (c4_sticky_cursor 0 [((0 : Nat), [QEvent.tup 7, QEvent.empty])] 0 0 false
    (by decide)).1 0 7 [QEvent.empty] (by decide)

/-- C5: the poll loop never violates `Assert(nextreader < nreaders)`: started
in range, no execution path reaches a read attempt with the cursor out of
range; and the done-reader step removes the reader, restores the cursor bound
before the next read (resetting it to 0 when out of range), and passes the
visit counter `nvisited` on unchanged (a done reader does not count as a
visit). -/
theorem c5_assert_valid (fuel : Nat) (rs : List Reader) (nr nv : Nat) (lok : Bool)
    (h : nr < rs.length) :
    (readnextF fuel rs nr nv lok).out ≠ .assertFailed ∧
    (∀ id, rs.get ⟨nr, h⟩ = (id, []) → (rs.eraseIdx nr).length ≠ 0 →
      (if (rs.eraseIdx nr).length ≤ nr then 0 else nr) < (rs.eraseIdx nr).length ∧
      readnextF (fuel + 1) rs nr nv lok
        = ⟨(readnextF fuel (rs.eraseIdx nr)
              (if (rs.eraseIdx nr).length ≤ nr then 0 else nr) nv lok).out,
           (readnextF fuel (rs.eraseIdx nr)
              (if (rs.eraseIdx nr).length ≤ nr then 0 else nr) nv lok).readers,
           (readnextF fuel (rs.eraseIdx nr)
              (if (rs.eraseIdx nr).length ≤ nr then 0 else nr) nv lok).next,
           .poll id :: (readnextF fuel (rs.eraseIdx nr)
              (if (rs.eraseIdx nr).length ≤ nr then 0 else nr) nv lok).trace⟩) :=
  ⟨readnextF_no_assert fuel rs nr nv lok h,
   fun id hget h0 => readnextF_done_step fuel rs nr nv lok h id hget h0⟩

theorem c5_witness :
    (readnextF 6 [((0 : Nat), []), ((1 : Nat), [QEvent.tup 3])] 0 0 false).out
      ≠ .assertFailed :=
  (c5_assert_valid 6 [((0 : Nat), []), ((1 : Nat), [QEvent.tup 3])] 0 0 false
    (by decide)).1

/-- C8: fairness of the poll loop: walking the trace of any invocation of
`gather_readnext` (entered with a fresh visit counter and an in-range cursor)
while collecting the ids polled since the last latch wait, every latch-wait
event's recorded survivor set is contained in the ids polled since the
previous wait (or since entry): every surviving reader is polled at least
once between any two consecutive latch waits. -/
theorem c8_fairness (rs : List Reader) (nr : Nat) (lok : Bool) (h : nr < rs.length) :
    coveredB [] (gather_readnext rs nr lok).trace = true :=
  readnextF_covered (totalEvents rs + rs.length + 1) rs nr 0 lok [] h
    (fun j hj _ => absurd hj (Nat.not_lt_zero j))

theorem c8_witness :
    coveredB [] (gather_readnext
      [((0 : Nat), [QEvent.empty, QEvent.empty]), ((1 : Nat), [QEvent.empty, QEvent.tup 9])]
      0 false).trace = true :=
  c8_fairness
    [((0 : Nat), [QEvent.empty, QEvent.empty]), ((1 : Nat), [QEvent.empty, QEvent.tup 9])]
    0 false (by decide)

theorem localTry_core (g g' : GatherState)
    (hnl : g.need_to_scan_locally = g'.need_to_scan_locally)
    (hch : g.child = g'.child) :
    (localTry g).1 = (localTry g').1 ∧
    (localTry g).2.need_to_scan_locally = (localTry g').2.need_to_scan_locally ∧
    (localTry g).2.child = (localTry g').2.child := by
  unfold localTry
  by_cases hn : g.need_to_scan_locally = true
  · have hn' : g'.need_to_scan_locally = true := by rw [← hnl]; exact hn
    rw [if_pos hn, if_pos hn', ← hch]
    rcases hc : g.child with _ | ⟨t, rest⟩ <;> simp [hnl, hch]
  · have hn' : ¬ g'.need_to_scan_locally = true := by rw [← hnl]; exact hn
    rw [if_neg hn, if_neg hn']
    exact ⟨rfl, hnl, hch⟩

theorem gather_getnextF_core (fuel : Nat) :
    ∀ g g' : GatherState, g.reader = g'.reader → g.nextreader = g'.nextreader →
      g.need_to_scan_locally = g'.need_to_scan_locally → g.child = g'.child →
      (gather_getnextF fuel g).1 = (gather_getnextF fuel g').1 ∧
      (gather_getnextF fuel g).2.reader = (gather_getnextF fuel g').2.reader ∧
      (gather_getnextF fuel g).2.nextreader = (gather_getnextF fuel g').2.nextreader ∧
      (gather_getnextF fuel g).2.need_to_scan_locally
        = (gather_getnextF fuel g').2.need_to_scan_locally ∧
      (gather_getnextF fuel g).2.child = (gather_getnextF fuel g').2.child := by
  induction fuel with
  | zero =>
    intro g g' h1 h2 h3 h4
    exact ⟨rfl, h1, h2, h3, h4⟩
  | succ fuel ih =>
    intro g g' h1 h2 h3 h4
    rcases hr : g.reader with _ | rs
    · have hr' : g'.reader = none := by rw [← h1]; exact hr
      simp only [gather_getnextF, hr, hr']
      by_cases hnl : g.need_to_scan_locally = true
      · rw [if_pos hnl, if_pos (show g'.need_to_scan_locally = true by rw [← h3]; exact hnl)]
        obtain ⟨LC1, LC2, LC3⟩ := localTry_core g g' h3 h4
        obtain ⟨L1, L2, L3, L4, L5, L6, L7⟩ := localTry_spec g
        obtain ⟨M1, M2, M3, M4, M5, M6, M7⟩ := localTry_spec g'
        rcases hl : (localTry g).1 with _ | t
        · have hl' : (localTry g').1 = none := by rw [← LC1]; exact hl
          rw [hl']
          dsimp only
          exact ih (localTry g).2 (localTry g').2
            (by rw [L1, M1, hr, hr']) (by rw [L2, M2, h2]) LC2 LC3
        · have hl' : (localTry g').1 = some t := by rw [← LC1]; exact hl
          rw [hl']
          dsimp only
          exact ⟨LC1, by rw [L1, M1, hr, hr'], by rw [L2, M2, h2], LC2, LC3⟩
      · rw [if_neg hnl, if_neg (show ¬ g'.need_to_scan_locally = true by rw [← h3]; exact hnl)]
        exact ⟨rfl, hr.trans hr'.symm, h2, h3, h4⟩
    · have hr' : g'.reader = some rs := by rw [← h1]; exact hr
      simp only [gather_getnextF, hr, hr']
      have hcall : gather_readnext rs g.nextreader g.need_to_scan_locally
          = gather_readnext rs g'.nextreader g'.need_to_scan_locally := by rw [h2, h3]
      rw [hcall]
      rcases ho : (gather_readnext rs g'.nextreader g'.need_to_scan_locally).out
        with t | _ | _ | _ | _ <;> dsimp only
      · exact ⟨rfl, rfl, rfl, h3, h4⟩
      · obtain ⟨S1, S2, S3, S4, S5, S6⟩ := ExecShutdownGatherWorkers_spec { g with reader := some (gather_readnext rs g'.nextreader g'.need_to_scan_locally).readers }
        obtain ⟨T1, T2, T3, T4, T5, T6⟩ := ExecShutdownGatherWorkers_spec { g' with reader := some (gather_readnext rs g'.nextreader g'.need_to_scan_locally).readers }
        obtain ⟨LC1, LC2, LC3⟩ := localTry_core (ExecShutdownGatherWorkers { g with reader := some (gather_readnext rs g'.nextreader g'.need_to_scan_locally).readers }) (ExecShutdownGatherWorkers { g' with reader := some (gather_readnext rs g'.nextreader g'.need_to_scan_locally).readers }) (by rw [S2, T2]; exact h3) (by rw [S4, T4]; exact h4)
        obtain ⟨L1, L2, L3, L4, L5, L6, L7⟩ := localTry_spec (ExecShutdownGatherWorkers { g with reader := some (gather_readnext rs g'.nextreader g'.need_to_scan_locally).readers })
        obtain ⟨M1, M2, M3, M4, M5, M6, M7⟩ := localTry_spec (ExecShutdownGatherWorkers { g' with reader := some (gather_readnext rs g'.nextreader g'.need_to_scan_locally).readers })
        rcases hl : (localTry (ExecShutdownGatherWorkers { g with reader := some (gather_readnext rs g'.nextreader g'.need_to_scan_locally).readers })).1 with _ | t
        · have hl' : (localTry (ExecShutdownGatherWorkers { g' with reader := some (gather_readnext rs g'.nextreader g'.need_to_scan_locally).readers })).1 = none := by rw [← LC1]; exact hl
          rw [hl']
          dsimp only
          exact ih _ _ (by rw [L1, M1, S1, T1]) (by rw [L2, M2, S3, T3]; exact h2) LC2 LC3
        · have hl' : (localTry (ExecShutdownGatherWorkers { g' with reader := some (gather_readnext rs g'.nextreader g'.need_to_scan_locally).readers })).1 = some t := by rw [← LC1]; exact hl
          rw [hl']
          dsimp only
          exact ⟨LC1, by rw [L1, M1, S1, T1], by rw [L2, M2, S3, T3]; exact h2, LC2, LC3⟩
      · obtain ⟨LC1, LC2, LC3⟩ := localTry_core { g with reader := some (gather_readnext rs g'.nextreader g'.need_to_scan_locally).readers, nextreader := (gather_readnext rs g'.nextreader g'.need_to_scan_locally).next } { g' with reader := some (gather_readnext rs g'.nextreader g'.need_to_scan_locally).readers, nextreader := (gather_readnext rs g'.nextreader g'.need_to_scan_locally).next } h3 h4
        obtain ⟨L1, L2, L3, L4, L5, L6, L7⟩ := localTry_spec { g with reader := some (gather_readnext rs g'.nextreader g'.need_to_scan_locally).readers, nextreader := (gather_readnext rs g'.nextreader g'.need_to_scan_locally).next }
        obtain ⟨M1, M2, M3, M4, M5, M6, M7⟩ := localTry_spec { g' with reader := some (gather_readnext rs g'.nextreader g'.need_to_scan_locally).readers, nextreader := (gather_readnext rs g'.nextreader g'.need_to_scan_locally).next }
        rcases hl : (localTry { g with reader := some (gather_readnext rs g'.nextreader g'.need_to_scan_locally).readers, nextreader := (gather_readnext rs g'.nextreader g'.need_to_scan_locally).next }).1 with _ | t
        · have hl' : (localTry { g' with reader := some (gather_readnext rs g'.nextreader g'.need_to_scan_locally).readers, nextreader := (gather_readnext rs g'.nextreader g'.need_to_scan_locally).next }).1 = none := by rw [← LC1]; exact hl
          rw [hl']
          dsimp only
          exact ih _ _ (by rw [L1, M1]) (by rw [L2, M2]) LC2 LC3
        · have hl' : (localTry { g' with reader := some (gather_readnext rs g'.nextreader g'.need_to_scan_locally).readers, nextreader := (gather_readnext rs g'.nextreader g'.need_to_scan_locally).next }).1 = some t := by rw [← LC1]; exact hl
          rw [hl']
          dsimp only
          exact ⟨LC1, by rw [L1, M1], by rw [L2, M2], LC2, LC3⟩
      · exact ⟨rfl, hr.trans hr'.symm, h2, h3, h4⟩
      · exact ⟨rfl, hr.trans hr'.symm, h2, h3, h4⟩

theorem gather_getnext_core (g g' : GatherState) (h1 : g.reader = g'.reader)
    (h2 : g.nextreader = g'.nextreader)
    (h3 : g.need_to_scan_locally = g'.need_to_scan_locally) (h4 : g.child = g'.child) :
    (gather_getnext g).1 = (gather_getnext g').1 ∧
    (gather_getnext g).2.reader = (gather_getnext g').2.reader ∧
    (gather_getnext g).2.nextreader = (gather_getnext g').2.nextreader ∧
    (gather_getnext g).2.need_to_scan_locally
      = (gather_getnext g').2.need_to_scan_locally ∧
    (gather_getnext g).2.child = (gather_getnext g').2.child := by
  unfold gather_getnext
  have hgm : gmeasure g = gmeasure g' := by
    unfold gmeasure
    rw [h1, h3, h4]
  rw [hgm]
  exact gather_getnextF_core (gmeasure g' + 1) g g' h1 h2 h3 h4

theorem ExecGather_out (g : GatherState) (b e : Int) (hinit : g.initialized = true) :
    (ExecGather g b e).1 = Option.map g.proj (gather_getnext g).1 := by
  simp only [ExecGather, hinit]
  rcases hw : g.is_parallel_worker <;>
    rcases hro : (gather_getnext g).1 with _ | t <;>
    simp [hw, hinit, hro]

/-- C10: the tuple path never filters: on an initialized node, `next()`
returns exactly the projection of whatever tuple `gather_getnext` obtained
(or the empty sentinel when it obtained none), and the qual expression that
`ExecInitGather` built is never evaluated — replacing it by any other
predicate leaves the result of `next()` unchanged. -/
theorem c10_no_qual_filter (g : GatherState) (b e : Int) (q : Nat → Bool)
    (hinit : g.initialized = true) :
    (ExecGather g b e).1 = Option.map g.proj (gather_getnext g).1 ∧
    (ExecGather { g with qual := q } b e).1 = (ExecGather g b e).1 := by
  refine ⟨ExecGather_out g b e hinit, ?_⟩
  rw [ExecGather_out { g with qual := q } b e hinit, ExecGather_out g b e hinit]
  have hout := (gather_getnext_core { g with qual := q } g rfl rfl rfl rfl).1
  rw [hout]

theorem c10_witness :
    ({ ExecInitGather false 0 false (fun t => t + 1) (fun _ => false) [4, 5]
        false false false [] with initialized := true } : GatherState).initialized = true ∧
    ((ExecGather { ExecInitGather false 0 false (fun t => t + 1) (fun _ => false) [4, 5]
        false false false [] with initialized := true } 0 0).1
      = Option.map ({ ExecInitGather false 0 false (fun t => t + 1) (fun _ => false) [4, 5]
        false false false [] with initialized := true } : GatherState).proj
        (gather_getnext { ExecInitGather false 0 false (fun t => t + 1) (fun _ => false)
          [4, 5] false false false [] with initialized := true }).1 ∧
    (ExecGather { { ExecInitGather false 0 false (fun t => t + 1) (fun _ => false) [4, 5]
        false false false [] with initialized := true } with qual := fun _ => true } 0 0).1
      = (ExecGather { ExecInitGather false 0 false (fun t => t + 1) (fun _ => false) [4, 5]
        false false false [] with initialized := true } 0 0).1) :=
  ⟨rfl, c10_no_qual_filter _ 0 0 (fun _ => true) rfl⟩

theorem ExecGather_local_step (g : GatherState) (b e : Int) (hinit : g.initialized = true)
    (hrd : g.reader = none) (hnl : g.need_to_scan_locally = true) :
    (g.child = [] → (ExecGather g b e).1 = none) ∧
    (∀ t rest, g.child = t :: rest →
      ExecGather g b e
        = (some (g.proj t), { g with child := rest, local_calls := g.local_calls + 1 })) := by
  constructor
  · intro hc
    rw [ExecGather_out g b e hinit]
    have hm : gmeasure g = 1 := by
      simp [gmeasure, hrd, hc, hnl]
    have hget : (gather_getnext g).1 = none := by
      unfold gather_getnext
      rw [hm]
      simp [gather_getnextF, localTry, hrd, hnl, hc]
    rw [hget]
    rfl
  · intro t rest hc
    have hget : gather_getnext g
        = (some t, { g with child := rest, local_calls := g.local_calls + 1 }) := by
      unfold gather_getnext
      simp [gather_getnextF, localTry, hrd, hnl, hc]
    simp only [ExecGather, hinit]
    rcases hw : g.is_parallel_worker <;> simp [hw, hinit, hget, hnl]

theorem iterateCalls_local (l : List Nat) :
    ∀ (g : GatherState) (ts : List (Int × Int)),
      g.initialized = true → g.reader = none → g.need_to_scan_locally = true →
      g.child = l → ts.length = l.length + 1 →
      (iterateCalls g ts).1 = l.map (fun t => some (g.proj t)) ++ [none] := by
  induction l with
  | nil =>
    intro g ts h1 h2 h3 h4 h5
    rcases ts with _ | ⟨p, ts'⟩
    · simp at h5
    · rcases ts' with _ | ⟨q, ts''⟩
      · simp only [iterateCalls]
        rw [(ExecGather_local_step g p.1 p.2 h1 h2 h3).1 h4]
        simp [iterateCalls]
      · simp at h5
  | cons t rest ih =>
    intro g ts h1 h2 h3 h4 h5
    rcases ts with _ | ⟨p, ts'⟩
    · simp at h5
    · have hstep := (ExecGather_local_step g p.1 p.2 h1 h2 h3).2 t rest h4
      simp only [iterateCalls, hstep]
      have := ih { g with child := rest, local_calls := g.local_calls + 1 } ts'
        h1 h2 h3 rfl (by simpa using h5)
      rw [this]
      simp

theorem iterateCalls_first (g : GatherState) (ts : List (Int × Int))
    (hinit : g.initialized = false) (hw : g.is_parallel_worker = false)
    (hps : g.parallel_send = false) (hne : ts ≠ []) :
    iterateCalls g ts = iterateCalls (execGatherInitStep g) ts := by
  rcases ts with _ | ⟨p, ts'⟩
  · cases hne rfl
  · simp only [iterateCalls]
    rw [ExecGather_first g p.1 p.2 hinit hw, if_neg (by rw [hps]; simp)]

/-- C7: with zero workers launched, the whole child rowset is produced by the
leader: on a fresh Gather node in the non-worker, non-`parallel_send` path
whose launch reports no workers, `next()` returns the child's tuples
(projected), in order, followed by the empty sentinel. -/
theorem c7_leader_fallback (sc inp stats : Bool) (nw : Nat) (proj : Nat → Nat)
    (qual : Nat → Bool) (child : List Nat) (ts : List (Int × Int))
    (hts : ts.length = child.length + 1) :
    (iterateCalls (ExecInitGather sc nw false proj qual child false inp stats []) ts).1
      = child.map (fun t => some (proj t)) ++ [none] := by
  have hne : ts ≠ [] := by
    intro hh
    rw [hh] at hts
    simp at hts
  rw [iterateCalls_first _ ts rfl rfl rfl hne]
  obtain ⟨hr1, hn1⟩ := execGatherInitStep_nolaunch
    (ExecInitGather sc nw false proj qual child false inp stats []) rfl rfl rfl
  have hfr := execGatherInitStep_frame
    (ExecInitGather sc nw false proj qual child false inp stats [])
  have hpr : (execGatherInitStep
      (ExecInitGather sc nw false proj qual child false inp stats [])).proj = proj :=
    hfr.2.2.2.1
  have := iterateCalls_local child
    (execGatherInitStep (ExecInitGather sc nw false proj qual child false inp stats []))
    ts hfr.1 hr1 hn1 (hfr.2.1) hts
  rw [this, hpr]

theorem c7_witness :
    (([(0, 0), (0, 0), (0, 0), (0, 0)] : List (Int × Int)).length
      = ([10, 20, 30] : List Nat).length + 1) ∧
    (iterateCalls (ExecInitGather false 2 false (fun t => t) (fun _ => true) [10, 20, 30]
        false true false []) [(0, 0), (0, 0), (0, 0), (0, 0)]).1
      = [10, 20, 30].map (fun t => some t) ++ [none] :=
  ⟨by decide,
   c7_leader_fallback false true false 2 (fun t => t) (fun _ => true) [10, 20, 30]
     [(0, 0), (0, 0), (0, 0), (0, 0)] (by decide)⟩

theorem iterateCalls_no_local (ts : List (Int × Int)) :
    ∀ g : GatherState, g.initialized = true →
      (∀ rs, g.reader = some rs → g.nextreader < rs.length) →
      g.need_to_scan_locally = false →
      (iterateCalls g ts).2.local_calls = g.local_calls := by
  induction ts with
  | nil =>
    intro g _ _ _
    rfl
  | cons p ts ih =>
    intro g h1 h2 h3
    obtain ⟨W, Iin, _, _, Mono, Loc, _⟩ := ExecGather_call g p.1 p.2 h1 h2
    simp only [iterateCalls]
    have hnl' : (ExecGather g p.1 p.2).2.need_to_scan_locally = false := by
      rcases hb : (ExecGather g p.1 p.2).2.need_to_scan_locally
      · rfl
      · rw [Mono hb] at h3
        cases h3
    have := ih (ExecGather g p.1 p.2).2 Iin W hnl'
    rw [this, Loc h3]

/-- C6: in single-copy mode with at least one worker launched, the local
child plan is never pulled by the leader during the whole scan: after the
first call launches the workers, `need_to_scan_locally` is false and stays
false, so `ExecProcNode(outerPlan)` is never invoked (the `local_calls`
counter stays 0), including after the workers are exhausted. -/
theorem c6_single_copy_no_local (nw : Nat) (inp stats : Bool) (proj : Nat → Nat)
    (qual : Nat → Bool) (child : List Nat) (env : List Reader)
    (ts : List (Int × Int))
    (hnw : 0 < nw) (hinp : inp = true) (henv : env ≠ []) :
    (iterateCalls (ExecInitGather true nw false proj qual child false inp stats env)
      ts).2.local_calls = 0 := by
  have hne0 : ∀ o : GatherState, o = ExecInitGather true nw false proj qual child
      false inp stats env → o.local_calls = 0 := by
    intro o ho
    rw [ho]
    rfl
  rcases ts with _ | ⟨p, ts'⟩
  · rfl
  · rw [iterateCalls_first _ _ rfl rfl rfl (by simp)]
    set g0 := ExecInitGather true nw false proj qual child false inp stats env with hg0
    set g1 := execGatherInitStep g0 with hg1
    have hfr := execGatherInitStep_frame g0
    obtain ⟨hr1, hn0, hn1, _⟩ := execGatherInitStep_launch g0 (by rw [hg0]; exact hnw)
      (by rw [hg0]; exact hinp) (by rw [hg0]; exact henv) (by rw [hg0]; rfl)
    have hwf1 : ∀ rs, g1.reader = some rs → g1.nextreader < rs.length :=
      execGatherInitStep_wf g0 (by rw [hg0]; rfl)
    obtain ⟨W, Iin, _, _, Mono, Loc, _⟩ := ExecGather_call g1 p.1 p.2 hfr.1 hwf1
    simp only [iterateCalls]
    have hnl' : (ExecGather g1 p.1 p.2).2.need_to_scan_locally = false := by
      rcases hb : (ExecGather g1 p.1 p.2).2.need_to_scan_locally
      · rfl
      · rw [Mono hb] at hn1
        cases hn1
    have hrest := iterateCalls_no_local ts' (ExecGather g1 p.1 p.2).2 Iin W hnl'
    rw [hrest, Loc hn1, hfr.2.2.2.2.2.2.2.2.2.2.2.2.2.2]
    rfl

theorem ExecReScanGather_spec (g : GatherState) :
    (ExecReScanGather g).reader = none ∧
    (ExecReScanGather g).initialized = false ∧
    (ExecReScanGather g).child = g.child0 ∧
    (g.pei = true → (ExecReScanGather g).reinit_count = g.reinit_count + 1) ∧
    (ExecReScanGather g).child0 = g.child0 ∧
    (ExecReScanGather g).env_queues = g.env_queues ∧
    (ExecReScanGather g).proj = g.proj ∧
    (ExecReScanGather g).parallel_send = g.parallel_send ∧
    (ExecReScanGather g).is_parallel_worker = g.is_parallel_worker ∧
    (ExecReScanGather g).num_workers = g.num_workers ∧
    (ExecReScanGather g).in_parallel_mode = g.in_parallel_mode ∧
    (ExecReScanGather g).pei = g.pei ∧
    (ExecReScanGather g).enable_statistic = g.enable_statistic := by
  unfold ExecReScanGather ExecShutdownGatherWorkers
  rcases hr : g.reader with _ | rs <;> by_cases hp : g.pei <;> simp [hr, hp]

theorem ExecGather_core_state (g : GatherState) (b e : Int) (hinit : g.initialized = true) :
    (ExecGather g b e).2.reader = (gather_getnext g).2.reader ∧
    (ExecGather g b e).2.nextreader = (gather_getnext g).2.nextreader ∧
    (ExecGather g b e).2.need_to_scan_locally
      = (gather_getnext g).2.need_to_scan_locally ∧
    (ExecGather g b e).2.child = (gather_getnext g).2.child := by
  simp only [ExecGather, hinit]
  rcases hw : g.is_parallel_worker <;> rcases hro : (gather_getnext g).1 with _ | t <;>
    simp [hw, hinit, hro] <;> split_ifs <;> simp

theorem runGatherF_invars (fuel : Nat) :
    ∀ (g : GatherState) (ts : List (Int × Int)), g.initialized = true →
      (∀ rs, g.reader = some rs → g.nextreader < rs.length) →
      (runGatherF fuel g ts).2.initialized = true ∧
      (∀ rs, (runGatherF fuel g ts).2.reader = some rs →
        (runGatherF fuel g ts).2.nextreader < rs.length) ∧
      (runGatherF fuel g ts).2.pei = g.pei ∧
      (runGatherF fuel g ts).2.reinit_count = g.reinit_count ∧
      (runGatherF fuel g ts).2.child0 = g.child0 ∧
      (runGatherF fuel g ts).2.env_queues = g.env_queues ∧
      (runGatherF fuel g ts).2.proj = g.proj ∧
      (runGatherF fuel g ts).2.parallel_send = g.parallel_send ∧
      (runGatherF fuel g ts).2.is_parallel_worker = g.is_parallel_worker ∧
      (runGatherF fuel g ts).2.num_workers = g.num_workers ∧
      (runGatherF fuel g ts).2.in_parallel_mode = g.in_parallel_mode ∧
      (runGatherF fuel g ts).2.enable_statistic = g.enable_statistic ∧
      (gmeasure g < fuel → Terminal (runGatherF fuel g ts).2 = true) := by
  induction fuel with
  | zero =>
    intro g ts h1 h2
    refine ⟨h1, h2, rfl, rfl, rfl, rfl, rfl, rfl, rfl, rfl, rfl, rfl, ?_⟩
    intro hm
    omega
  | succ fuel ih =>
    intro g ts h1 h2
    obtain ⟨W, Iin, Hn, Hm, _, _, Pei, Proj, Rc, En, Env, Ch0, Ipw, Inp, Ps, Nw, _, _, _, _⟩ :=
      ExecGather_call g (ts.headD (0, 0)).1 (ts.headD (0, 0)).2 h1 h2
    simp only [runGatherF]
    rcases ho : ExecGather g (ts.headD (0, 0)).1 (ts.headD (0, 0)).2 with ⟨o, g1⟩
    have hg1 : (ExecGather g (ts.headD (0, 0)).1 (ts.headD (0, 0)).2).2 = g1 := by rw [ho]
    rw [hg1] at W Iin Pei Proj Rc En Env Ch0 Ipw Inp Ps Nw
    rcases o with _ | t
    · dsimp only
      have hg1o : (ExecGather g (ts.headD (0, 0)).1 (ts.headD (0, 0)).2).1 = none := by
        rw [ho]
      refine ⟨Iin, W, Pei, Rc, Ch0, Env, Proj, Ps, Ipw, Nw, Inp, En, ?_⟩
      intro _
      have := (Hn hg1o).1
      rw [hg1] at this
      exact this
    · dsimp only
      have hg1o : (ExecGather g (ts.headD (0, 0)).1 (ts.headD (0, 0)).2).1 = some t := by
        rw [ho]
      obtain ⟨I1, I2, I3, I4, I5, I6, I7, I8, I9, I10, I11, I12, I13⟩ :=
        ih g1 ts.tail Iin W
      refine ⟨I1, I2, I3.trans Pei, I4.trans Rc, I5.trans Ch0, I6.trans Env,
        I7.trans Proj, I8.trans Ps, I9.trans Ipw, I10.trans Nw, I11.trans Inp,
        I12.trans En, ?_⟩
      intro hm
      apply I13
      have := Hm t hg1o
      rw [hg1] at this
      omega

theorem runGatherF_core (fuel : Nat) :
    ∀ (g g' : GatherState) (ts ts' : List (Int × Int)),
      g.initialized = true → g'.initialized = true →
      (∀ rs, g.reader = some rs → g.nextreader < rs.length) →
      (∀ rs, g'.reader = some rs → g'.nextreader < rs.length) →
      g.reader = g'.reader → g.nextreader = g'.nextreader →
      g.need_to_scan_locally = g'.need_to_scan_locally → g.child = g'.child →
      g.proj = g'.proj →
      (runGatherF fuel g ts).1 = (runGatherF fuel g' ts').1 := by
  induction fuel with
  | zero =>
    intro g g' ts ts' _ _ _ _ _ _ _ _ _
    rfl
  | succ fuel ih =>
    intro g g' ts ts' hi hi' hw hw' h1 h2 h3 h4 h5
    obtain ⟨GC1, GC2, GC3, GC4, GC5⟩ := gather_getnext_core g g' h1 h2 h3 h4
    have houts : (ExecGather g (ts.headD (0, 0)).1 (ts.headD (0, 0)).2).1
        = (ExecGather g' (ts'.headD (0, 0)).1 (ts'.headD (0, 0)).2).1 := by
      rw [ExecGather_out g _ _ hi, ExecGather_out g' _ _ hi', GC1, h5]
    obtain ⟨E1, E2, E3, E4⟩ := ExecGather_core_state g (ts.headD (0, 0)).1
      (ts.headD (0, 0)).2 hi
    obtain ⟨F1, F2, F3, F4⟩ := ExecGather_core_state g' (ts'.headD (0, 0)).1
      (ts'.headD (0, 0)).2 hi'
    obtain ⟨W, Iin, _, _, _, _, _, Proj, _⟩ :=
      ExecGather_call g (ts.headD (0, 0)).1 (ts.headD (0, 0)).2 hi hw
    obtain ⟨W', Iin', _, _, _, _, _, Proj', _⟩ :=
      ExecGather_call g' (ts'.headD (0, 0)).1 (ts'.headD (0, 0)).2 hi' hw'
    simp only [runGatherF]
    rcases ho : ExecGather g (ts.headD (0, 0)).1 (ts.headD (0, 0)).2 with ⟨o, g1⟩
    rcases ho' : ExecGather g' (ts'.headD (0, 0)).1 (ts'.headD (0, 0)).2 with ⟨o', g1'⟩
    have hg1 : (ExecGather g (ts.headD (0, 0)).1 (ts.headD (0, 0)).2).2 = g1 := by rw [ho]
    have hg1' : (ExecGather g' (ts'.headD (0, 0)).1 (ts'.headD (0, 0)).2).2 = g1' := by
      rw [ho']
    rw [hg1] at W Iin E1 E2 E3 E4 Proj
    rw [hg1'] at W' Iin' F1 F2 F3 F4 Proj'
    have hoo : o = o' := by
      have h7 := houts
      rw [ho, ho'] at h7
      exact h7
    rcases o with _ | t
    · rw [← hoo]
    · rw [← hoo]
      dsimp only
      have hrec := ih g1 g1' ts.tail ts'.tail Iin Iin' W W'
        (by rw [E1, F1, GC2]) (by rw [E2, F2, GC3]) (by rw [E3, F3, GC4])
        (by rw [E4, F4, GC5]) (by rw [Proj, Proj', h5])
      rw [hrec]

theorem runGatherF_first (fuel : Nat) (g : GatherState) (ts : List (Int × Int))
    (hinit : g.initialized = false) (hw : g.is_parallel_worker = false)
    (hps : g.parallel_send = false) :
    runGatherF (fuel + 1) g ts = runGatherF (fuel + 1) (execGatherInitStep g) ts := by
  simp only [runGatherF]
  rw [ExecGather_first g _ _ hinit hw, if_neg (by rw [hps]; simp)]

/-- C2: for a completed scan of a fresh Gather (non-worker path, parallel
mode, workers requested and launched, tuple funnel mode), followed by one
`rescan()` and a second scan: the first run reaches the terminal state, the
rescan step invokes `ExecParallelReinitialize` exactly once (the parallel
context survives the run, so `reinit_count` rises by exactly 1 between the
two runs), and the second run yields the same multiset of tuples as the
first.  (The second run's own first call performs the context
reinitialization that its first-call initialization prescribes; that call
belongs to the second run, not to the gap between runs.) -/
theorem c2_rescan (sc stats : Bool) (nw : Nat) (proj : Nat → Nat) (qual : Nat → Bool)
    (child : List Nat) (env : List Reader) (ts ts' : List (Int × Int))
    (hnw : 0 < nw) (henv : env ≠ []) :
    Terminal (runGather (ExecInitGather sc nw false proj qual child false true stats env)
      ts).2 = true ∧
    (ExecReScanGather (runGather (ExecInitGather sc nw false proj qual child false true
      stats env) ts).2).reinit_count
      = (runGather (ExecInitGather sc nw false proj qual child false true stats env)
          ts).2.reinit_count + 1 ∧
    (↑(runGather (ExecReScanGather (runGather (ExecInitGather sc nw false proj qual child
        false true stats env) ts).2) ts').1 : Multiset Nat)
      = ↑(runGather (ExecInitGather sc nw false proj qual child false true stats env)
          ts).1 := by
  set g0 := ExecInitGather sc nw false proj qual child false true stats env with hg0
  obtain ⟨f, hf⟩ : ∃ f, runFuel g0 = f + 1 := ⟨runFuel g0 - 1, by unfold runFuel; omega⟩
  have henv0 : g0.env_queues ≠ [] := henv
  have hnw0 : 0 < g0.num_workers := hnw
  have hrun1 : runGather g0 ts = runGatherF (f + 1) (execGatherInitStep g0) ts := by
    unfold runGather
    rw [hf, runGatherF_first f g0 ts (by rw [hg0]; rfl) (by rw [hg0]; rfl) (by rw [hg0]; rfl)]
  set g1 := execGatherInitStep g0 with hg1
  obtain ⟨R1, R2, R3, R4, R5, R6, R7, R8⟩ := execGatherInitStep_launch g0 hnw0 (by rw [hg0]; rfl) henv0 (by rw [hg0]; rfl)
  have hfr1 := execGatherInitStep_frame g0
  have hwf1 := execGatherInitStep_wf g0 rfl
  obtain ⟨I1, I2, I3, I4, I5, I6, I7, I8, I9, I10, I11, I12, I13⟩ :=
    runGatherF_invars (f + 1) g1 ts hfr1.1 hwf1
  have hch1 : g1.child = g0.child := hfr1.2.1
  have hgm1 : gmeasure g1 < runFuel g0 := by
    have e1 : gmeasure g1
        = totalEvents g0.env_queues + g0.env_queues.length + 1 + g0.child.length := by
      unfold gmeasure
      rw [R1, R3, hch1]
      simp
    have e2 : runFuel g0 = totalEvents g0.env_queues + g0.env_queues.length
        + g0.child0.length + g0.child.length + 4 := by
      unfold runFuel
      have hrd0 : g0.reader = none := rfl
      rw [hrd0]
      simp
    rw [e1, e2]
    omega
  have hterm1 : Terminal (runGatherF (f + 1) g1 ts).2 = true := I13 (by omega)
  rw [hrun1]
  set gf1 := (runGatherF (f + 1) g1 ts).2 with hgf1
  have hpei1 : gf1.pei = true := by
    rw [I3, R4]
  obtain ⟨S1, S2, S3, S4, S5, S6, S7, S8, S9, S10, S11, S12, S13⟩ :=
    ExecReScanGather_spec gf1
  refine ⟨hterm1, S4 hpei1, ?_⟩
  set g2 := ExecReScanGather gf1 with hg2
  have henv2 : g2.env_queues = g0.env_queues := by
    rw [S6, I6, hfr1.2.2.2.2.2.2.2.2.1]
  have hch0 : g2.child0 = g0.child0 := by
    rw [S5, I5, hfr1.2.2.1]
  have hch00 : g0.child = g0.child0 := rfl
  have hrf2 : runFuel g2 = runFuel g0 := by
    unfold runFuel
    rw [S1]
    have hrd0 : g0.reader = none := rfl
    rw [hrd0]
    have hch2 : g2.child = g0.child0 := by rw [S3, I5, hfr1.2.2.1]
    rw [henv2, hch0, hch2, hch00]
  have hps2 : g2.parallel_send = false := by
    rw [S8, I8, hfr1.2.2.2.2.2.2.2.1, hg0]
    rfl
  have hw2 : g2.is_parallel_worker = false := by
    rw [S9, I9, hfr1.2.2.2.2.2.2.2.2.2.2.1, hg0]
    rfl
  have hrun2 : runGather g2 ts' = runGatherF (f + 1) (execGatherInitStep g2) ts' := by
    unfold runGather
    rw [hrf2, hf, runGatherF_first f g2 ts' S2 hw2 hps2]
  rw [hrun2]
  set g3 := execGatherInitStep g2 with hg3
  have henv2ne : g2.env_queues ≠ [] := by
    rw [henv2]
    exact henv0
  have hnw2 : 0 < g2.num_workers := by
    rw [S10, I10, hfr1.2.2.2.2.2.2.1]
    exact hnw0
  have hinp2 : g2.in_parallel_mode = true := by
    rw [S11, I11, hfr1.2.2.2.2.2.2.2.2.2.2.2.1, hg0]
    rfl
  obtain ⟨T1, T2, T3, T4, T5, T6, T7, T8⟩ := execGatherInitStep_launch g2 hnw2 hinp2
    henv2ne hps2
  have hfr3 := execGatherInitStep_frame g2
  have hwf3 := execGatherInitStep_wf g2 S1
  have hout : (runGatherF (f + 1) g3 ts').1 = (runGatherF (f + 1) g1 ts).1 := by
    apply runGatherF_core (f + 1) g3 g1 ts' ts hfr3.1 hfr1.1 hwf3 hwf1
    · rw [T1, R1, henv2]
    · rw [T2, R2]
    · rw [T3, R3]
    · rw [hfr3.2.1, hch1, S3, I5, hfr1.2.2.1, hch00]
    · rw [hfr3.2.2.2.1, hfr1.2.2.2.1, S7, I7, hfr1.2.2.2.1]
  rw [hout]

theorem c2_witness :
    0 < 1 ∧ ([(0, [QEvent.tup 5])] : List Reader) ≠ [] ∧
      (Terminal (runGather (ExecInitGather false 1 false (fun t => t) (fun _ => true) []
          false true false [(0, [QEvent.tup 5])]) []).2 = true ∧
        (ExecReScanGather (runGather (ExecInitGather false 1 false (fun t => t)
            (fun _ => true) [] false true false [(0, [QEvent.tup 5])]) []).2).reinit_count
          = (runGather (ExecInitGather false 1 false (fun t => t) (fun _ => true) []
              false true false [(0, [QEvent.tup 5])]) []).2.reinit_count + 1 ∧
        (↑(runGather (ExecReScanGather (runGather (ExecInitGather false 1 false
              (fun t => t) (fun _ => true) [] false true false [(0, [QEvent.tup 5])])
              []).2) []).1 : Multiset Nat)
          = ↑(runGather (ExecInitGather false 1 false (fun t => t) (fun _ => true) []
              false true false [(0, [QEvent.tup 5])]) []).1) :=
  ⟨by decide, by decide, c2_rescan false false 1 (fun t => t) (fun _ => true) []
    [(0, [QEvent.tup 5])] [] [] (by decide) (by decide)⟩

theorem c6_witness :
    0 < 1 ∧ (true : Bool) = true ∧ ([(0, [QEvent.tup 5])] : List Reader) ≠ [] ∧
      (iterateCalls (ExecInitGather true 1 false (fun t => t) (fun _ => true) [] false
          true false [(0, [QEvent.tup 5])]) [(0, 0), (0, 0), (0, 0)]).2.local_calls = 0 :=
  ⟨by decide, rfl, by decide,
    c6_single_copy_no_local 1 true false (fun t => t) (fun _ => true) []
      [(0, [QEvent.tup 5])] [(0, 0), (0, 0), (0, 0)] (by decide) rfl (by decide)⟩

theorem take_drop_one (ts : List (Int × Int)) (n : Nat) :
    (ts.take (n + 1)).drop 1 = ts.tail.take n := by
  cases ts <;> simp

theorem latencySum_take_succ (ts : List (Int × Int)) (n : Nat) :
    latencySum (ts.take (n + 1))
      = ((ts.headD (0, 0)).2 - (ts.headD (0, 0)).1) + latencySum (ts.tail.take n) := by
  cases ts with
  | nil => simp [latencySum]
  | cons q ts' => simp [latencySum, List.take_succ_cons]

theorem lat_head_nonneg (ts : List (Int × Int)) (hts : ∀ p ∈ ts, p.1 ≤ p.2) :
    (ts.headD (0, 0)).1 ≤ (ts.headD (0, 0)).2 := by
  cases ts with
  | nil => simp
  | cons q ts' => exact hts q (List.mem_cons_self q ts')

theorem runGatherF_stats (fuel : Nat) :
    ∀ (g : GatherState) (ts : List (Int × Int)), g.initialized = true →
      (∀ rs, g.reader = some rs → g.nextreader < rs.length) →
      g.need_to_scan_locally = false →
      g.enable_statistic = true →
      (∀ p ∈ ts, p.1 ≤ p.2) →
      (g.get_total_time = -1 ∨ 0 ≤ g.get_total_time) →
      (runGatherF fuel g ts).2.get_tuples
        = g.get_tuples + (runGatherF fuel g ts).1.length ∧
      (g.get_total_time = -1 →
        (runGatherF fuel g ts).2.get_total_time =
          (if (runGatherF fuel g ts).1.length = 0 then -1
           else latencySum ((ts.take (runGatherF fuel g ts).1.length).drop 1))) ∧
      (0 ≤ g.get_total_time →
        (runGatherF fuel g ts).2.get_total_time =
          g.get_total_time + latencySum (ts.take (runGatherF fuel g ts).1.length)) := by
  induction fuel with
  | zero =>
    intro g ts _ _ _ _ _ _
    refine ⟨by simp [runGatherF], ?_, ?_⟩
    · intro hm
      simp [runGatherF, hm]
    · intro _
      simp [runGatherF, latencySum]
  | succ fuel ih =>
    intro g ts hinit hwf hnl hstat hts htot
    obtain ⟨W, Iin, _, _, NlMono, _, _, _, _, En, _, _, _, _, _, _, _, Stats, NoneStats, _⟩ :=
      ExecGather_call g (ts.headD (0, 0)).1 (ts.headD (0, 0)).2 hinit hwf
    simp only [runGatherF]
    rcases ho : ExecGather g (ts.headD (0, 0)).1 (ts.headD (0, 0)).2 with ⟨o, g1⟩
    have hg1 : (ExecGather g (ts.headD (0, 0)).1 (ts.headD (0, 0)).2).2 = g1 := by rw [ho]
    rw [hg1] at W Iin NlMono En Stats NoneStats
    rcases o with _ | t
    · dsimp only
      have hg1o : (ExecGather g (ts.headD (0, 0)).1 (ts.headD (0, 0)).2).1 = none := by
        rw [ho]
      obtain ⟨N1, N2⟩ := NoneStats hg1o
      refine ⟨by rw [N1]; simp, ?_, ?_⟩
      · intro hm
        simp [N2, hm]
      · intro _
        simp [N2, latencySum]
    · dsimp only
      have hg1o : (ExecGather g (ts.headD (0, 0)).1 (ts.headD (0, 0)).2).1 = some t := by
        rw [ho]
      obtain ⟨S1, S2⟩ := Stats hstat hnl t hg1o
      have hnl1 : g1.need_to_scan_locally = false := by
        cases hx : g1.need_to_scan_locally with
        | false => rfl
        | true => exact absurd (NlMono hx) (by simp [hnl])
      have hstat1 : g1.enable_statistic = true := En.trans hstat
      have hts1 : ∀ p ∈ ts.tail, p.1 ≤ p.2 := fun p hp => hts p (List.mem_of_mem_tail hp)
      have hlat : (ts.headD (0, 0)).1 ≤ (ts.headD (0, 0)).2 := lat_head_nonneg ts hts
      by_cases hm1 : g.get_total_time = -1
      · have hS2 : g1.get_total_time = 0 := by rw [S2, if_pos hm1]
        obtain ⟨I1, _, I3⟩ := ih g1 ts.tail Iin W hnl1 hstat1 hts1 (Or.inr (by rw [hS2]))
        have hI3 := I3 (by rw [hS2])
        refine ⟨?_, ?_, ?_⟩
        · rw [I1, S1]
          simp only [List.length_cons]
          omega
        · intro _
          rw [if_neg (by simp)]
          simp only [List.length_cons]
          rw [take_drop_one, hI3, hS2]
          simp
        · intro hge
          omega
      · have hge0 : 0 ≤ g.get_total_time := by
          rcases htot with h | h
          · exact absurd h hm1
          · exact h
        have hS2 : g1.get_total_time
            = g.get_total_time + ((ts.headD (0, 0)).2 - (ts.headD (0, 0)).1) := by
          rw [S2, if_neg hm1]
        have hge1 : 0 ≤ g1.get_total_time := by rw [hS2]; omega
        obtain ⟨I1, _, I3⟩ := ih g1 ts.tail Iin W hnl1 hstat1 hts1 (Or.inr hge1)
        have hI3 := I3 hge1
        refine ⟨?_, ?_, ?_⟩
        · rw [I1, S1]
          simp only [List.length_cons]
          omega
        · intro hm
          exact absurd hm hm1
        · intro _
          simp only [List.length_cons]
          rw [latencySum_take_succ, hI3, hS2]
          omega

/-- C9 counterexample: a normal-mode Gather with statistics enabled whose one
worker delivers a single tuple with read latency 5 (`tup_begin = 0`,
`tup_end = 5`).  After the scan, `get_tuples = 1` as the claim says, but
`get_total_time = 0`, not `5`: the code initializes `get_total_time` to `-1`
and the first returned tuple only resets it to `0` (its latency is dropped),
so `get_total_time` does not equal the sum of the per-tuple read latencies. -/
theorem c9_counterexample :
    (runGather (ExecInitGather false 1 false (fun t => t) (fun _ => true) []
        false true true [(0, [QEvent.tup 7])]) [(0, 5), (0, 0)]).1.length = 1 ∧
    (runGather (ExecInitGather false 1 false (fun t => t) (fun _ => true) []
        false true true [(0, [QEvent.tup 7])]) [(0, 5), (0, 0)]).2.get_tuples = 1 ∧
    ¬ ((runGather (ExecInitGather false 1 false (fun t => t) (fun _ => true) []
        false true true [(0, [QEvent.tup 7])]) [(0, 5), (0, 0)]).2.get_total_time
      = latencySum [(0, 5)]) := by
  decide

/-- C9 amended: for a fresh normal-mode Gather (non-worker path, parallel
mode, workers launched) with statistics enabled and monotone timestamps,
after a complete scan returning `n` tuples, `get_tuples = n`; but
`get_total_time` is `-1` when `n = 0` and otherwise accumulates only the
read latencies of tuples 2..n — the first tuple's latency is dropped by the
`get_total_time == -1` reset branch of `ExecGather`. -/
theorem c9_statistics (sc : Bool) (nw : Nat) (proj : Nat → Nat) (qual : Nat → Bool)
    (child : List Nat) (env : List Reader) (ts : List (Int × Int))
    (hnw : 0 < nw) (henv : env ≠ []) (hts : ∀ p ∈ ts, p.1 ≤ p.2) :
    (runGather (ExecInitGather sc nw false proj qual child false true true env)
        ts).2.get_tuples
      = (runGather (ExecInitGather sc nw false proj qual child false true true env)
          ts).1.length ∧
    ((runGather (ExecInitGather sc nw false proj qual child false true true env)
        ts).1.length = 0 →
      (runGather (ExecInitGather sc nw false proj qual child false true true env)
        ts).2.get_total_time = -1) ∧
    (0 < (runGather (ExecInitGather sc nw false proj qual child false true true env)
        ts).1.length →
      (runGather (ExecInitGather sc nw false proj qual child false true true env)
        ts).2.get_total_time
        = latencySum ((ts.take (runGather (ExecInitGather sc nw false proj qual child
            false true true env) ts).1.length).drop 1)) := by
  set g0 := ExecInitGather sc nw false proj qual child false true true env with hg0
  obtain ⟨f, hf⟩ : ∃ f, runFuel g0 = f + 1 := ⟨runFuel g0 - 1, by unfold runFuel; omega⟩
  have henv0 : g0.env_queues ≠ [] := henv
  have hnw0 : 0 < g0.num_workers := hnw
  have hrun : runGather g0 ts = runGatherF (f + 1) (execGatherInitStep g0) ts := by
    unfold runGather
    rw [hf, runGatherF_first f g0 ts (by rw [hg0]; rfl) (by rw [hg0]; rfl) (by rw [hg0]; rfl)]
  obtain ⟨F1, _, _, _, _, _, _, _, _, F10, _, _, F13, F14, _⟩ := execGatherInitStep_frame g0
  have hwf1 := execGatherInitStep_wf g0 (by rw [hg0]; rfl)
  obtain ⟨_, _, L3, _⟩ := execGatherInitStep_launch g0 hnw0 (by rw [hg0]; rfl) henv0
    (by rw [hg0]; rfl)
  have hstat1 : (execGatherInitStep g0).enable_statistic = true := by rw [F10, hg0]; rfl
  have htot1 : (execGatherInitStep g0).get_total_time = -1 := by rw [F14, hg0]; rfl
  have htup1 : (execGatherInitStep g0).get_tuples = 0 := by rw [F13, hg0]; rfl
  obtain ⟨S1, S2, _⟩ := runGatherF_stats (f + 1) (execGatherInitStep g0) ts F1 hwf1 L3
    hstat1 hts (Or.inl htot1)
  have hS2 := S2 htot1
  rw [hrun]
  refine ⟨?_, ?_, ?_⟩
  · rw [S1, htup1]
    exact Nat.zero_add _
  · intro h0
    rw [hS2, if_pos h0]
  · intro hpos
    rw [hS2, if_neg (by omega)]

theorem c9_witness :
    0 < 1 ∧ ([(0, [QEvent.tup 7, QEvent.tup 8])] : List Reader) ≠ [] ∧
    (∀ p ∈ [((0 : Int), (5 : Int)), ((2 : Int), (3 : Int)), ((0 : Int), (0 : Int))],
      p.1 ≤ p.2) ∧
    ((runGather (ExecInitGather false 1 false (fun t => t) (fun _ => true) [] false true
        true [(0, [QEvent.tup 7, QEvent.tup 8])]) [(0, 5), (2, 3), (0, 0)]).2.get_tuples
      = (runGather (ExecInitGather false 1 false (fun t => t) (fun _ => true) [] false
          true true [(0, [QEvent.tup 7, QEvent.tup 8])]) [(0, 5), (2, 3),
          (0, 0)]).1.length ∧
    ((runGather (ExecInitGather false 1 false (fun t => t) (fun _ => true) [] false true
        true [(0, [QEvent.tup 7, QEvent.tup 8])]) [(0, 5), (2, 3), (0, 0)]).1.length = 0 →
      (runGather (ExecInitGather false 1 false (fun t => t) (fun _ => true) [] false true
        true [(0, [QEvent.tup 7, QEvent.tup 8])]) [(0, 5), (2, 3),
        (0, 0)]).2.get_total_time = -1) ∧
    (0 < (runGather (ExecInitGather false 1 false (fun t => t) (fun _ => true) [] false
        true true [(0, [QEvent.tup 7, QEvent.tup 8])]) [(0, 5), (2, 3),
        (0, 0)]).1.length →
      (runGather (ExecInitGather false 1 false (fun t => t) (fun _ => true) [] false true
        true [(0, [QEvent.tup 7, QEvent.tup 8])]) [(0, 5), (2, 3),
        (0, 0)]).2.get_total_time
        = latencySum (([((0 : Int), (5 : Int)), ((2 : Int), (3 : Int)),
            ((0 : Int), (0 : Int))].take
            (runGather (ExecInitGather false 1 false (fun t => t) (fun _ => true) []
              false true true [(0, [QEvent.tup 7, QEvent.tup 8])]) [(0, 5), (2, 3),
              (0, 0)]).1.length).drop 1))) :=
  ⟨by decide, by decide, by decide,
    c9_statistics false 1 (fun t => t) (fun _ => true) [] [(0, [QEvent.tup 7, QEvent.tup 8])]
      [(0, 5), (2, 3), (0, 0)] (by decide) (by decide) (by decide)⟩
